import Mathlib

/-!
Verification development for the elf-lang interpreter (lexer.py, parser.py,
evaluator.py).  The Python sources are shallowly embedded below: the lexer and
parser are translated function by function, and the tree-walking evaluator is
embedded as a fuel-indexed state-passing interpreter.  Machine-level caveats of
the reference implementation (CPython `int`/`Decimal`/`float` behaviour) are
modelled explicitly where a claim depends on them.
-/

namespace Elf

/-! ### Small string/number utilities shared by the embedding -/

/-- The apostrophe character, used when rebuilding Python error strings. -/
def sq : String := String.mk [Char.ofNat 39]

/-- ASCII digit test, modelling `str.isdigit` on the ASCII sources the
interpreter is run on. -/
def pyIsDigit (c : Char) : Bool := 48 ≤ c.toNat && c.toNat ≤ 57

/-- ASCII letter test, modelling `str.isalpha` on ASCII sources. -/
def pyIsAlpha (c : Char) : Bool :=
  (65 ≤ c.toNat && c.toNat ≤ 90) || (97 ≤ c.toNat && c.toNat ≤ 122)

/-- ASCII alphanumeric test, modelling `str.isalnum` on ASCII sources. -/
def pyIsAlnum (c : Char) : Bool := pyIsAlpha c || pyIsDigit c

def digitChar (n : Nat) : Char := Char.ofNat (48 + n)

/-- Decimal digits of a natural number (fuel-driven so the kernel can
evaluate it; the fuel `n+1` always suffices). -/
def natDigits : Nat → Nat → List Char
  | 0, _ => []
  | f + 1, n => if n < 10 then [digitChar n] else natDigits f (n / 10) ++ [digitChar (n % 10)]

/-- `str` of a natural number. -/
def natStr (n : Nat) : String := String.mk (natDigits (n + 1) n)

/-- `str` of a Python integer: decimal digits with a leading `-` if negative. -/
def intStr (i : Int) : String := if i < 0 then "-" ++ natStr i.natAbs else natStr i.natAbs

/-- Accumulate decimal digits into a natural number. -/
def digitsToNat : List Char → Nat → Nat
  | [], acc => acc
  | c :: cs, acc => digitsToNat cs (acc * 10 + (c.toNat - 48))

/-- `int(value)` on a literal made of digits and underscores (underscores
already removed by the evaluator before the call). -/
def pyParseInt (s : String) : Int := Int.ofNat (digitsToNat (s.data.filter (fun c => c ≠ '_')) 0)

/-- `''.join(buffer)`: concatenate the output buffer. -/
def joinAll (l : List String) : String := l.foldl (fun a b => a ++ b) ""

/-- Strict code-point-lexicographic comparison of character lists, modelling
Python `str < str` (which the CPython sort and `compare_values` use). -/
def strLtL : List Char → List Char → Bool
  | [], [] => false
  | [], _ :: _ => true
  | _ :: _, [] => false
  | a :: as, b :: bs =>
    if a.toNat < b.toNat then true
    else if b.toNat < a.toNat then false
    else strLtL as bs

def strLt (a b : String) : Bool := strLtL a.data b.data

/-! ### Exact decimal-rational values

`ElfDecimal` stores a CPython `Decimal`; the arithmetic paths of the evaluator
route through IEEE-754 doubles.  We model both with an exact fraction type
`Dq` (numerator, positive denominator) and an explicit round-to-nearest-even
binary64 rounding function for the float paths.  Sub-normal/overflow ranges of
binary64 and the trailing-zero significance of `Decimal` (invisible after the
interpreter strips them when printing) are outside the modelled programs. -/

structure Dq where
  num : Int
  den : Nat
  den_pos : 0 < den

def Dq.ofInt (n : Int) : Dq := ⟨n, 1, Nat.one_pos⟩

/-- Numeric equality of fractions (Python `Decimal == Decimal` is numeric). -/
def Dq.eqb (a b : Dq) : Bool := a.num * (b.den : Int) == b.num * (a.den : Int)

/-- Numeric strict order on fractions. -/
def Dq.ltb (a b : Dq) : Bool := decide (a.num * (b.den : Int) < b.num * (a.den : Int))

def Dq.isZero (a : Dq) : Bool := a.num == 0

/-- `value % 1 == 0`: the stored decimal is a whole number. -/
def Dq.isWhole (a : Dq) : Bool := a.num % (a.den : Int) == 0

/-- `int(value)`: truncation toward zero. -/
def Dq.trunc (a : Dq) : Int := a.num.tdiv (a.den : Int)

/-- Floor of a fraction. -/
def Dq.floorI (a : Dq) : Int := a.num.fdiv (a.den : Int)

def Dq.negE (a : Dq) : Dq := ⟨-a.num, a.den, a.den_pos⟩

/-- Exact sum of fractions. -/
def Dq.addE (a b : Dq) : Dq :=
  ⟨a.num * (b.den : Int) + b.num * (a.den : Int), a.den * b.den, Nat.mul_pos a.den_pos b.den_pos⟩

/-- Exact difference of fractions. -/
def Dq.subE (a b : Dq) : Dq := a.addE b.negE

/-- Exact product of fractions. -/
def Dq.mulE (a b : Dq) : Dq := ⟨a.num * b.num, a.den * b.den, Nat.mul_pos a.den_pos b.den_pos⟩

/-- Exact quotient of fractions (callers rule out a zero divisor first). -/
def Dq.divE (a b : Dq) : Dq :=
  if h : b.num = 0 then Dq.ofInt 0
  else
    ⟨(if b.num < 0 then -a.num else a.num) * (b.den : Int), a.den * b.num.natAbs,
      Nat.mul_pos a.den_pos (Int.natAbs_pos.mpr h)⟩

/-- Fuel-driven binary logarithm (`Nat.log2` is not kernel-computable). -/
def natLog2F : Nat → Nat → Nat
  | 0, _ => 0
  | f + 1, n => if n ≥ 2 then natLog2F f (n / 2) + 1 else 0

def log2N (n : Nat) : Nat := natLog2F n n

/-- `p / 2^e` on fractions. -/
def dqScaleDownPow2 (p : Dq) (e : Int) : Dq :=
  match e with
  | .ofNat k => ⟨p.num, p.den * 2 ^ k, Nat.mul_pos p.den_pos (Nat.pos_pow_of_pos k (by decide))⟩
  | .negSucc k => ⟨p.num * 2 ^ (k + 1), p.den, p.den_pos⟩

/-- `2^e ≤ p` for a positive fraction `p`. -/
def dqLePow2 (e : Int) (p : Dq) : Bool :=
  match e with
  | .ofNat k => decide ((2 ^ k : Int) * p.den ≤ p.num)
  | .negSucc k => decide ((p.den : Int) ≤ p.num * 2 ^ (k + 1))

/-- The binary exponent of a positive fraction: the `e` with `2^e ≤ p < 2^(e+1)`,
located from the bit lengths of numerator and denominator. -/
def dqExp (p : Dq) : Int :=
  let e0 : Int := (log2N p.num.natAbs : Int) - (log2N p.den : Int)
  if dqLePow2 (e0 + 1) p then e0 + 1
  else if dqLePow2 e0 p then e0
  else e0 - 1

/-- Round an exact fraction to the nearest IEEE-754 binary64 value
(round-to-nearest, ties-to-even), as a fraction.  This models the value CPython
computes for float conversions and float arithmetic results in the normal
range; sub-normal and overflow ranges do not occur in the modelled programs. -/
def roundDouble (q : Dq) : Dq :=
  if q.num = 0 then Dq.ofInt 0
  else
    let s : Int := if q.num < 0 then -1 else 1
    let a : Dq := ⟨(q.num.natAbs : Int), q.den, q.den_pos⟩
    let e := dqExp a
    let m0 := dqScaleDownPow2 a (e - 52)
    let n := m0.num.fdiv (m0.den : Int)
    let r := m0.num - n * (m0.den : Int)
    let m := if 2 * r > (m0.den : Int) then n + 1
             else if 2 * r < (m0.den : Int) then n
             else if n % 2 == 0 then n else n + 1
    match e - 52 with
    | .ofNat k => ⟨s * m * 2 ^ k, 1, Nat.one_pos⟩
    | .negSucc k => ⟨s * m, 2 ^ (k + 1), Nat.pos_pow_of_pos _ (by decide)⟩

/-- `float(x)` on a stored decimal. -/
def pyFloat (q : Dq) : Dq := roundDouble q

/-! #### `Decimal(str(float))` requantization

`ElfDecimal.__init__` stores `Decimal(str(value))`: for a float result this is
the exact value of CPython's shortest decimal string that round-trips to the
double (`repr` of a float), not the double's full binary expansion.  The
search below reproduces that value: for each significand length `k` (shortest
first) it tests the two `k`-digit decimals bracketing the double; a candidate
is acceptable when rounding it back to binary64 recovers the double, and among
acceptable candidates the one nearer the double wins (an exact tie would take
the even significand; such ties do not arise for binary64 values). -/

/-- Number of decimal digits of a natural number. -/
def numDigits (n : Nat) : Nat := (natDigits (n + 1) n).length

/-- `10^e ≤ p` for a positive fraction `p`. -/
def dqLePow10 (e : Int) (p : Dq) : Bool :=
  match e with
  | .ofNat k => decide ((10 ^ k : Int) * p.den ≤ p.num)
  | .negSucc k => decide ((p.den : Int) ≤ p.num * 10 ^ (k + 1))

/-- The decimal exponent of a positive fraction: the `e` with
`10^e ≤ p < 10^(e+1)`, located from the digit counts of numerator and
denominator. -/
def dqExp10 (p : Dq) : Int :=
  let e0 : Int := (numDigits p.num.natAbs : Int) - (numDigits p.den : Int)
  if dqLePow10 (e0 + 1) p then e0 + 1
  else if dqLePow10 e0 p then e0
  else e0 - 1

/-- `floor(p / 10^e)` for a positive fraction `p`. -/
def dqFloorScale10 (p : Dq) (e : Int) : Int :=
  match e with
  | .ofNat k => p.num.fdiv ((p.den : Int) * 10 ^ k)
  | .negSucc k => (p.num * 10 ^ (k + 1)).fdiv (p.den : Int)

/-- `c * 10^e` as a fraction. -/
def dqOfScaled (c : Int) (e : Int) : Dq :=
  match e with
  | .ofNat k => ⟨c * 10 ^ k, 1, Nat.one_pos⟩
  | .negSucc k => ⟨c, 10 ^ (k + 1), Nat.pos_pow_of_pos _ (by decide)⟩

/-- Search for the shortest round-tripping decimal of the positive double
value `d`, trying significand lengths `k, k+1, …` (17 digits always suffice
for binary64; the fuel-out fallback keeps the double's exact value and is
unreachable for genuine in-range doubles). -/
def shortestDecLoop (d : Dq) (e10 : Int) : Nat → Nat → Dq
  | 0, _ => d
  | f + 1, k =>
    let p : Int := e10 - (k : Int) + 1
    let cf : Int := dqFloorScale10 d p
    let vf := dqOfScaled cf p
    let vc := dqOfScaled (cf + 1) p
    let okf := (roundDouble vf).eqb d
    let okc := (roundDouble vc).eqb d
    if okf && okc then
      let twice := d.addE d
      let mid := vf.addE vc
      if twice.ltb mid then vf
      else if mid.ltb twice then vc
      else if cf % 2 == 0 then vf else vc
    else if okf then vf
    else if okc then vc
    else shortestDecLoop d e10 f (k + 1)

/-- The exact value of `Decimal(str(d))` for a binary64 value `d`: the
shortest decimal that rounds back to `d`. -/
def pyShortestDec (d : Dq) : Dq :=
  if d.num = 0 then Dq.ofInt 0
  else if d.num < 0 then
    (shortestDecLoop ⟨(d.num.natAbs : Int), d.den, d.den_pos⟩
      (dqExp10 ⟨(d.num.natAbs : Int), d.den, d.den_pos⟩) 20 1).negE
  else shortestDecLoop d (dqExp10 d) 20 1

/-- `ElfDecimal(f)` for a float `f`: `Decimal(str(f))`. -/
def elfDecimalOfFloat (d : Dq) : Dq := pyShortestDec d

/-- Largest power of `p` dividing `n` (fuel-driven). -/
def multOf (p : Nat) : Nat → Nat → Nat
  | 0, _ => 0
  | f + 1, n => if n % p == 0 then multOf p f (n / p) + 1 else 0

def stripTrailingZeros (l : List Char) : List Char :=
  (l.reverse.dropWhile (fun c => c = '0')).reverse

/-- Printed form of an `ElfDecimal` (`ElfDecimal.__repr__`): whole values print
as integers, otherwise the decimal expansion with trailing zeros and a trailing
dot stripped. -/
def decStr (q : Dq) : String :=
  if q.isWhole then intStr q.trunc
  else
    let k := max (multOf 2 q.den q.den) (multOf 5 q.den q.den)
    let m : Int := (q.num * 10 ^ k).tdiv (q.den : Int)
    let sgn := if q.num < 0 then "-" else ""
    let digits := natDigits (m.natAbs + 1) m.natAbs
    let padded := if digits.length ≥ k + 1 then digits
                  else List.replicate (k + 1 - digits.length) '0' ++ digits
    let ip := padded.take (padded.length - k)
    let fp := stripTrailingZeros (padded.drop (padded.length - k))
    if fp.isEmpty then sgn ++ String.mk ip
    else sgn ++ String.mk ip ++ "." ++ String.mk fp

/-- `Decimal(value)` of a numeric literal text: underscores removed, split at
the (single) dot. -/
def pyParseDq (s : String) : Dq :=
  let cs := s.data.filter (fun c => c ≠ '_')
  let ip := cs.takeWhile (fun c => c ≠ '.')
  let fpRaw := cs.dropWhile (fun c => c ≠ '.')
  let fp := fpRaw.drop 1
  ⟨Int.ofNat (digitsToNat (ip ++ fp) 0), 10 ^ fp.length,
    Nat.pos_pow_of_pos _ (by decide)⟩

/-! ### Lexer (lexer.py) -/

inductive TokenType where
  | INT | DEC | STR | TRUE | FALSE | NIL
  | LET | MUT | IF | ELSE
  | ID | CMT
  | EQ | NE | GE | LE | AND | OR | PIPE_OP | COMPOSE | DICT_START
  | PLUS | MINUS | MULTIPLY | DIVIDE | ASSIGN | GT | LT
  | LBRACE | RBRACE | LBRACKET | RBRACKET | SEMICOLON | LPAREN | RPAREN
  | COMMA | COLON | PIPE
  deriving DecidableEq

/-- The Python enum member name (`TokenType.X` prints as `TokenType.<name>`). -/
def TokenType.memberName : TokenType → String
  | .INT => "INT" | .DEC => "DEC" | .STR => "STR" | .TRUE => "TRUE"
  | .FALSE => "FALSE" | .NIL => "NIL" | .LET => "LET" | .MUT => "MUT"
  | .IF => "IF" | .ELSE => "ELSE" | .ID => "ID" | .CMT => "CMT"
  | .EQ => "EQ" | .NE => "NE" | .GE => "GE" | .LE => "LE" | .AND => "AND"
  | .OR => "OR" | .PIPE_OP => "PIPE_OP" | .COMPOSE => "COMPOSE"
  | .DICT_START => "DICT_START" | .PLUS => "PLUS" | .MINUS => "MINUS"
  | .MULTIPLY => "MULTIPLY" | .DIVIDE => "DIVIDE" | .ASSIGN => "ASSIGN"
  | .GT => "GT" | .LT => "LT" | .LBRACE => "LBRACE" | .RBRACE => "RBRACE"
  | .LBRACKET => "LBRACKET" | .RBRACKET => "RBRACKET"
  | .SEMICOLON => "SEMICOLON" | .LPAREN => "LPAREN" | .RPAREN => "RPAREN"
  | .COMMA => "COMMA" | .COLON => "COLON" | .PIPE => "PIPE"

/-- The Python enum member value string. -/
def TokenType.memberValue : TokenType → String
  | .INT => "INT" | .DEC => "DEC" | .STR => "STR" | .TRUE => "TRUE"
  | .FALSE => "FALSE" | .NIL => "NIL" | .LET => "LET" | .MUT => "MUT"
  | .IF => "IF" | .ELSE => "ELSE" | .ID => "ID" | .CMT => "CMT"
  | .EQ => "==" | .NE => "!=" | .GE => ">=" | .LE => "<=" | .AND => "&&"
  | .OR => "||" | .PIPE_OP => "|>" | .COMPOSE => ">>"
  | .DICT_START => "#\x7b" | .PLUS => "+" | .MINUS => "-"
  | .MULTIPLY => "*" | .DIVIDE => "/" | .ASSIGN => "=" | .GT => ">"
  | .LT => "<" | .LBRACE => "\x7b" | .RBRACE => "\x7d" | .LBRACKET => "["
  | .RBRACKET => "]" | .SEMICOLON => ";" | .LPAREN => "(" | .RPAREN => ")"
  | .COMMA => "," | .COLON => ":" | .PIPE => "|"

/-- `str(TokenType.X)`. -/
def TokenType.pyStr (t : TokenType) : String := "TokenType." ++ t.memberName

structure Token where
  type : TokenType
  value : String
  position : Nat
  deriving DecidableEq

/-- `repr` of the `Token` named tuple, as interpolated into parser error
messages (string values typical of tokens carry no characters that Python
`repr` escapes). -/
def Token.pyRepr (t : Token) : String :=
  "Token(type=<" ++ t.type.pyStr ++ ": " ++ sq ++ t.type.memberValue ++ sq ++ ">, value=" ++
    sq ++ t.value ++ sq ++ ", position=" ++ natStr t.position ++ ")"

/-- `str(self.current_token)`: `None` or the token repr. -/
def optTokenStr : Option Token → String
  | none => "None"
  | some t => t.pyRepr

/-- `read_number`: digits, underscores, at most one dot; a second dot ends the
token.  Returns (lexeme, rest, has_decimal). -/
def read_number_go : List Char → Bool → List Char × List Char × Bool
  | [], hd => ([], [], hd)
  | c :: cs, hd =>
    if pyIsDigit c || c = '_' then
      let r := read_number_go cs hd
      (c :: r.1, r.2)
    else if c = '.' then
      if hd then ([], c :: cs, hd)
      else
        let r := read_number_go cs true
        (c :: r.1, r.2)
    else ([], c :: cs, hd)

/-- Body of `read_string` after the opening quote: consume up to (not
including) the closing quote, taking backslash escapes as two characters. -/
def read_string_go : List Char → List Char × List Char
  | [] => ([], [])
  | c :: cs =>
    if c = '"' then ([], c :: cs)
    else if c = '\\' then
      match cs with
      | [] => ([c], [])
      | d :: ds =>
        let r := read_string_go ds
        (c :: d :: r.1, r.2)
    else
      let r := read_string_go cs
      (c :: r.1, r.2)

/-- `read_identifier`: letters, digits, underscores. -/
def read_ident_go : List Char → List Char × List Char
  | [] => ([], [])
  | c :: cs =>
    if pyIsAlnum c || c = '_' then
      let r := read_ident_go cs
      (c :: r.1, r.2)
    else ([], c :: cs)

/-- Keyword reclassification of `read_identifier`. -/
def keywordType (s : String) : TokenType :=
  if s = "let" then .LET
  else if s = "mut" then .MUT
  else if s = "if" then .IF
  else if s = "else" then .ELSE
  else if s = "true" then .TRUE
  else if s = "false" then .FALSE
  else if s = "nil" then .NIL
  else .ID

/-- `read_comment`: to end of line. -/
def read_comment_go : List Char → List Char × List Char
  | [] => ([], [])
  | c :: cs =>
    if c = '\n' then ([], c :: cs)
    else
      let r := read_comment_go cs
      (c :: r.1, r.2)

def singleCharType (c : Char) : Option TokenType :=
  if c = '+' then some .PLUS else if c = '-' then some .MINUS
  else if c = '*' then some .MULTIPLY else if c = '/' then some .DIVIDE
  else if c = '=' then some .ASSIGN else if c = '>' then some .GT
  else if c = '<' then some .LT else if c = '{' then some .LBRACE
  else if c = '}' then some .RBRACE else if c = '[' then some .LBRACKET
  else if c = ']' then some .RBRACKET else if c = ';' then some .SEMICOLON
  else if c = '(' then some .LPAREN else if c = ')' then some .RPAREN
  else if c = ',' then some .COMMA else if c = ':' then some .COLON
  else if c = '|' then some .PIPE else none

/-- `get_next_token`: skip whitespace/newlines/unknown characters, then read
one token; `none` at end of input.  Returns the token, the remaining
characters and the position after the token. -/
def get_next_token : List Char → Nat → Option (Token × List Char × Nat)
  | [], _ => none
  | c :: cs, pos =>
    if c = ' ' || c = '\t' then get_next_token cs (pos + 1)
    else if c = '\n' || c = '\r' then get_next_token cs (pos + 1)
    else if pyIsDigit c then
      let r := read_number_go (c :: cs) false
      some (⟨if r.2.2 then .DEC else .INT, String.mk r.1, pos⟩, r.2.1, pos + r.1.length)
    else if c = '"' then
      let r := read_string_go cs
      match r.2 with
      | q :: rest =>
        -- closing quote present (`q = '"'` by construction of `read_string_go`)
        some (⟨.STR, String.mk ('"' :: r.1 ++ [q]), pos⟩, rest, pos + r.1.length + 2)
      | [] =>
        some (⟨.STR, String.mk ('"' :: r.1), pos⟩, [], pos + r.1.length + 1)
    else if pyIsAlpha c || c = '_' then
      let r := read_ident_go (c :: cs)
      let s := String.mk r.1
      some (⟨keywordType s, s, pos⟩, r.2, pos + r.1.length)
    else if c = '/' && cs.head? = some '/' then
      let r := read_comment_go (c :: cs)
      some (⟨.CMT, String.mk r.1, pos⟩, r.2, pos + r.1.length)
    else if c = '=' && cs.head? = some '=' then
      some (⟨.EQ, "==", pos⟩, cs.drop 1, pos + 2)
    else if c = '!' && cs.head? = some '=' then
      some (⟨.NE, "!=", pos⟩, cs.drop 1, pos + 2)
    else if c = '>' && cs.head? = some '=' then
      some (⟨.GE, ">=", pos⟩, cs.drop 1, pos + 2)
    else if c = '<' && cs.head? = some '=' then
      some (⟨.LE, "<=", pos⟩, cs.drop 1, pos + 2)
    else if c = '&' && cs.head? = some '&' then
      some (⟨.AND, "&&", pos⟩, cs.drop 1, pos + 2)
    else if c = '|' && cs.head? = some '|' then
      some (⟨.OR, "||", pos⟩, cs.drop 1, pos + 2)
    else if c = '|' && cs.head? = some '>' then
      some (⟨.PIPE_OP, "|>", pos⟩, cs.drop 1, pos + 2)
    else if c = '>' && cs.head? = some '>' then
      some (⟨.COMPOSE, ">>", pos⟩, cs.drop 1, pos + 2)
    else if c = '#' && cs.head? = some '{' then
      some (⟨.DICT_START, "#\x7b", pos⟩, cs.drop 1, pos + 2)
    else
      match singleCharType c with
      | some tt => some (⟨tt, String.mk [c], pos⟩, cs, pos + 1)
      | none => get_next_token cs (pos + 1)

/-- `tokenize` main loop; the fuel `length + 1` suffices because every produced
token consumes at least one character. -/
def tokenize_go : Nat → List Char → Nat → List Token
  | 0, _, _ => []
  | f + 1, cs, pos =>
    match get_next_token cs pos with
    | none => []
    | some (t, rest, pos') => t :: tokenize_go f rest pos'

/-- `Lexer(source).tokenize()`. -/
def tokenize (source : String) : List Token :=
  tokenize_go (source.data.length + 1) source.data 0

end Elf

namespace Elf

/-! ### AST (parser.py output shapes) -/

mutual
inductive Expr where
  | integer (value : String)
  | decimal (value : String)
  | stringE (value : String)
  | boolean (value : Bool)
  | nilE
  | identifier (name : String)
  | letE (name : String) (value : Expr)
  | mutableLet (name : String) (value : Expr)
  | assignment (name : String) (value : Expr)
  | binop (operator : String) (left right : Expr)
  | unop (operator : String) (operand : Expr)
  | call (function : Expr) (arguments : List Expr)
  | indexE (left idx : Expr)
  | listE (items : List Expr)
  | setE (items : List Expr)
  | dictE (items : List (Expr × Expr))
  | function (parameters : List String) (body : List Stmt)
  | ifE (condition : Expr) (consequence : List Stmt) (alternative : Option (List Stmt))
  | composition (functions : List Expr)
  | thread (initial : Expr) (functions : List Expr)
inductive Stmt where
  | comment (value : String)
  | expression (value : Expr)
end

/-! ### String-literal unescaping (parse_primary, STR branch)

The Python code applies four sequential global `str.replace` calls; the
sequential composition (not a one-pass unescape) is reproduced exactly. -/

def isPre : List Char → List Char → Bool
  | [], _ => true
  | _ :: _, [] => false
  | p :: ps, c :: cs => p == c && isPre ps cs

/-- One global left-to-right non-overlapping `str.replace` pass (fuel-driven;
`length + 1` suffices for a nonempty pattern). -/
def replaceL (pat rep : List Char) : Nat → List Char → List Char
  | 0, l => l
  | _ + 1, [] => []
  | f + 1, c :: cs =>
    if isPre pat (c :: cs) then rep ++ replaceL pat rep f ((c :: cs).drop pat.length)
    else c :: replaceL pat rep f cs

def strReplace (s : String) (pat rep : List Char) : String :=
  String.mk (replaceL pat rep (s.data.length + 1) s.data)

/-- `content.replace('\\\"','"').replace('\\\\','\\').replace('\\n','\n').replace('\\t','\t')`. -/
def unescapeString (content : String) : String :=
  let e1 := strReplace content ['\\', '"'] ['"']
  let e2 := strReplace e1 ['\\', '\\'] ['\\']
  let e3 := strReplace e2 ['\\', 'n'] ['\n']
  strReplace e3 ['\\', 't'] ['\t']

/-! ### Parser (parser.py) -/

abbrev PRes (α : Type) := Except String (α × List Token)

/-- `expect`: consume a token of the given type or raise `SyntaxError`. -/
def expectTok (tt : TokenType) : List Token → PRes Token
  | t :: rest =>
    if t.type = tt then .ok (t, rest)
    else .error ("Expected " ++ tt.pyStr ++ ", got " ++ optTokenStr (some t))
  | [] => .error ("Expected " ++ tt.pyStr ++ ", got " ++ optTokenStr none)

/-- Optional trailing semicolon after a statement. -/
def eatSemi : List Token → List Token
  | t :: rest => if t.type = .SEMICOLON then rest else t :: rest
  | [] => []

/-- `skip_comments` (used by `parse_block`). -/
def dropComments : List Token → List Token
  | t :: rest => if t.type = .CMT then dropComments rest else t :: rest
  | [] => []

/-- Parameter list of a function literal (loop in `parse_function`; fuel-driven,
one unit per parameter, so the parser fuel always suffices). -/
def fn_params_go : Nat → List Token → List String → List String × List Token
  | 0, toks, acc => (acc, toks)
  | _ + 1, [], acc => (acc, [])
  | f + 1, t :: rest, acc =>
    if t.type = .PIPE then (acc, t :: rest)
    else if t.type = .ID then
      match rest with
      | t2 :: rest2 =>
        if t2.type = .COMMA then fn_params_go f rest2 (acc ++ [t.value])
        else fn_params_go f rest (acc ++ [t.value])
      | [] => (acc ++ [t.value], [])
    else (acc, t :: rest)

/-- The parser's recursion fuel; exhaustion models CPython's recursion limit. -/
def parserFuelMsg : String := "maximum recursion depth exceeded"

mutual

def parse_statement : Nat → List Token → PRes Stmt
  | 0, _ => .error parserFuelMsg
  | f + 1, toks =>
    match toks with
    | t :: rest =>
      if t.type = .CMT then .ok (.comment t.value, rest)
      else if t.type = .ID && (match rest.head? with | some t2 => t2.type = .ASSIGN | none => false) then
        match parse_expression f (rest.drop 1) with
        | .error e => .error e
        | .ok (v, r) => .ok (.expression (.assignment t.value v), eatSemi r)
      else
        match parse_expression f toks with
        | .error e => .error e
        | .ok (v, r) => .ok (.expression v, eatSemi r)
    | [] =>
      match parse_expression f [] with
      | .error e => .error e
      | .ok (v, r) => .ok (.expression v, eatSemi r)

def parse_expression : Nat → List Token → PRes Expr
  | 0, _ => .error parserFuelMsg
  | f + 1, toks => parse_threading f toks

def parse_threading : Nat → List Token → PRes Expr
  | 0, _ => .error parserFuelMsg
  | f + 1, toks =>
    match parse_composition f toks with
    | .error e => .error e
    | .ok (left, r) =>
      match r.head? with
      | some t =>
        if t.type = .PIPE_OP then
          match thread_loop f r [] with
          | .error e => .error e
          | .ok (fns, r2) => .ok (.thread left fns, r2)
        else .ok (left, r)
      | none => .ok (left, r)

def thread_loop : Nat → List Token → List Expr → PRes (List Expr)
  | 0, _, _ => .error parserFuelMsg
  | f + 1, toks, acc =>
    match toks.head? with
    | some t =>
      if t.type = .PIPE_OP then
        match parse_composition f (toks.drop 1) with
        | .error e => .error e
        | .ok (fn, r) => thread_loop f r (acc ++ [fn])
      else .ok (acc, toks)
    | none => .ok (acc, toks)

def parse_composition : Nat → List Token → PRes Expr
  | 0, _ => .error parserFuelMsg
  | f + 1, toks =>
    match parse_logical_or f toks with
    | .error e => .error e
    | .ok (left, r) =>
      match r.head? with
      | some t =>
        if t.type = .COMPOSE then
          match compose_loop f r [left] with
          | .error e => .error e
          | .ok (fns, r2) => .ok (.composition fns, r2)
        else .ok (left, r)
      | none => .ok (left, r)

def compose_loop : Nat → List Token → List Expr → PRes (List Expr)
  | 0, _, _ => .error parserFuelMsg
  | f + 1, toks, acc =>
    match toks.head? with
    | some t =>
      if t.type = .COMPOSE then
        match parse_logical_or f (toks.drop 1) with
        | .error e => .error e
        | .ok (fn, r) => compose_loop f r (acc ++ [fn])
      else .ok (acc, toks)
    | none => .ok (acc, toks)

def parse_logical_or : Nat → List Token → PRes Expr
  | 0, _ => .error parserFuelMsg
  | f + 1, toks =>
    match parse_logical_and f toks with
    | .error e => .error e
    | .ok (left, r) => binop_loop_or f left r

def binop_loop_or : Nat → Expr → List Token → PRes Expr
  | 0, _, _ => .error parserFuelMsg
  | f + 1, left, toks =>
    match toks.head? with
    | some t =>
      if t.type = .OR then
        match parse_logical_and f (toks.drop 1) with
        | .error e => .error e
        | .ok (right, r) => binop_loop_or f (.binop t.value left right) r
      else .ok (left, toks)
    | none => .ok (left, toks)

def parse_logical_and : Nat → List Token → PRes Expr
  | 0, _ => .error parserFuelMsg
  | f + 1, toks =>
    match parse_equality f toks with
    | .error e => .error e
    | .ok (left, r) => binop_loop_and f left r

def binop_loop_and : Nat → Expr → List Token → PRes Expr
  | 0, _, _ => .error parserFuelMsg
  | f + 1, left, toks =>
    match toks.head? with
    | some t =>
      if t.type = .AND then
        match parse_equality f (toks.drop 1) with
        | .error e => .error e
        | .ok (right, r) => binop_loop_and f (.binop t.value left right) r
      else .ok (left, toks)
    | none => .ok (left, toks)

def parse_equality : Nat → List Token → PRes Expr
  | 0, _ => .error parserFuelMsg
  | f + 1, toks =>
    match parse_comparison f toks with
    | .error e => .error e
    | .ok (left, r) => binop_loop_eq f left r

def binop_loop_eq : Nat → Expr → List Token → PRes Expr
  | 0, _, _ => .error parserFuelMsg
  | f + 1, left, toks =>
    match toks.head? with
    | some t =>
      if t.type = .EQ || t.type = .NE then
        match parse_comparison f (toks.drop 1) with
        | .error e => .error e
        | .ok (right, r) => binop_loop_eq f (.binop t.value left right) r
      else .ok (left, toks)
    | none => .ok (left, toks)

def parse_comparison : Nat → List Token → PRes Expr
  | 0, _ => .error parserFuelMsg
  | f + 1, toks =>
    match parse_addition f toks with
    | .error e => .error e
    | .ok (left, r) => binop_loop_cmp f left r

def binop_loop_cmp : Nat → Expr → List Token → PRes Expr
  | 0, _, _ => .error parserFuelMsg
  | f + 1, left, toks =>
    match toks.head? with
    | some t =>
      if t.type = .GT || t.type = .LT || t.type = .GE || t.type = .LE then
        match parse_addition f (toks.drop 1) with
        | .error e => .error e
        | .ok (right, r) => binop_loop_cmp f (.binop t.value left right) r
      else .ok (left, toks)
    | none => .ok (left, toks)

def parse_addition : Nat → List Token → PRes Expr
  | 0, _ => .error parserFuelMsg
  | f + 1, toks =>
    match parse_multiplication f toks with
    | .error e => .error e
    | .ok (left, r) => binop_loop_add f left r

def binop_loop_add : Nat → Expr → List Token → PRes Expr
  | 0, _, _ => .error parserFuelMsg
  | f + 1, left, toks =>
    match toks.head? with
    | some t =>
      if t.type = .PLUS || t.type = .MINUS then
        match parse_multiplication f (toks.drop 1) with
        | .error e => .error e
        | .ok (right, r) => binop_loop_add f (.binop t.value left right) r
      else .ok (left, toks)
    | none => .ok (left, toks)

def parse_multiplication : Nat → List Token → PRes Expr
  | 0, _ => .error parserFuelMsg
  | f + 1, toks =>
    match parse_unary f toks with
    | .error e => .error e
    | .ok (left, r) => binop_loop_mul f left r

def binop_loop_mul : Nat → Expr → List Token → PRes Expr
  | 0, _, _ => .error parserFuelMsg
  | f + 1, left, toks =>
    match toks.head? with
    | some t =>
      if t.type = .MULTIPLY || t.type = .DIVIDE then
        match parse_unary f (toks.drop 1) with
        | .error e => .error e
        | .ok (right, r) => binop_loop_mul f (.binop t.value left right) r
      else .ok (left, toks)
    | none => .ok (left, toks)

def parse_unary : Nat → List Token → PRes Expr
  | 0, _ => .error parserFuelMsg
  | f + 1, toks =>
    match toks.head? with
    | some t =>
      if t.type = .MINUS then
        match parse_unary f (toks.drop 1) with
        | .error e => .error e
        | .ok (operand, r) => .ok (.unop t.value operand, r)
      else parse_postfix f toks
    | none => parse_postfix f toks

def parse_postfix : Nat → List Token → PRes Expr
  | 0, _ => .error parserFuelMsg
  | f + 1, toks =>
    match parse_primary f toks with
    | .error e => .error e
    | .ok (left, r) => postfix_loop f left r

def postfix_loop : Nat → Expr → List Token → PRes Expr
  | 0, _, _ => .error parserFuelMsg
  | f + 1, left, toks =>
    match toks.head? with
    | some t =>
      if t.type = .LBRACKET then
        match parse_expression f (toks.drop 1) with
        | .error e => .error e
        | .ok (ix, r) =>
          match expectTok .RBRACKET r with
          | .error e => .error e
          | .ok (_, r2) => postfix_loop f (.indexE left ix) r2
      else if t.type = .LPAREN then
        match call_args_go f (toks.drop 1) [] with
        | .error e => .error e
        | .ok (args, r) =>
          match expectTok .RPAREN r with
          | .error e => .error e
          | .ok (_, r2) => postfix_loop f (.call left args) r2
      else .ok (left, toks)
    | none => .ok (left, toks)

def call_args_go : Nat → List Token → List Expr → PRes (List Expr)
  | 0, _, _ => .error parserFuelMsg
  | f + 1, toks, acc =>
    match toks.head? with
    | none => .ok (acc, toks)
    | some t =>
      if t.type = .RPAREN then .ok (acc, toks)
      else
        match parse_expression f toks with
        | .error e => .error e
        | .ok (arg, r) =>
          match r.head? with
          | some t2 =>
            if t2.type = .COMMA then call_args_go f (r.drop 1) (acc ++ [arg])
            else .ok (acc ++ [arg], r)
          | none => .ok (acc ++ [arg], r)

def parse_primary : Nat → List Token → PRes Expr
  | 0, _ => .error parserFuelMsg
  | f + 1, toks =>
    match toks with
    | [] => .error "Unexpected end of input"
    | t :: rest =>
      if t.type = .INT then .ok (.integer t.value, rest)
      else if t.type = .DEC then .ok (.decimal t.value, rest)
      else if t.type = .STR then
        let raw := t.value
        if raw.data.head? = some '"' && raw.data.getLast? = some '"' then
          let content := String.mk (raw.data.drop 1).dropLast
          .ok (.stringE (unescapeString content), rest)
        else .ok (.stringE raw, rest)
      else if t.type = .TRUE then .ok (.boolean true, rest)
      else if t.type = .FALSE then .ok (.boolean false, rest)
      else if t.type = .NIL then .ok (.nilE, rest)
      else if t.type = .ID then .ok (.identifier t.value, rest)
      else if t.type = .LPAREN then
        match parse_expression f rest with
        | .error e => .error e
        | .ok (e, r) =>
          match expectTok .RPAREN r with
          | .error e2 => .error e2
          | .ok (_, r2) => .ok (e, r2)
      else if t.type = .LET then parse_let f (t :: rest)
      else if t.type = .IF then parse_if f (t :: rest)
      else if t.type = .LBRACKET then parse_list f (t :: rest)
      else if t.type = .LBRACE then parse_set f (t :: rest)
      else if t.type = .DICT_START then parse_dictionary f (t :: rest)
      else if t.type = .PIPE then parse_function f (t :: rest)
      else if t.type = .OR then parse_zero_param_function f (t :: rest)
      else if t.type = .PLUS || t.type = .MINUS || t.type = .MULTIPLY || t.type = .DIVIDE then
        .ok (.identifier t.value, rest)
      else .error ("Unexpected token: " ++ optTokenStr (some t))

def parse_let : Nat → List Token → PRes Expr
  | 0, _ => .error parserFuelMsg
  | f + 1, toks =>
    match expectTok .LET toks with
    | .error e => .error e
    | .ok (_, r) =>
      let mutFlag : Bool := match r.head? with | some t => t.type == .MUT | none => false
      let r1 := if mutFlag then r.drop 1 else r
      match r1.head? with
      | some t =>
        if t.type = .ID then
          match expectTok .ASSIGN (r1.drop 1) with
          | .error e => .error e
          | .ok (_, r2) =>
            match parse_expression f r2 with
            | .error e => .error e
            | .ok (v, r3) =>
              .ok ((if mutFlag then .mutableLet t.value v else .letE t.value v), r3)
        else .error ("Expected identifier after let, got " ++ optTokenStr (some t))
      | none => .error ("Expected identifier after let, got " ++ optTokenStr none)

def parse_if : Nat → List Token → PRes Expr
  | 0, _ => .error parserFuelMsg
  | f + 1, toks =>
    match expectTok .IF toks with
    | .error e => .error e
    | .ok (_, r) =>
      match parse_expression f r with
      | .error e => .error e
      | .ok (cond, r1) =>
        match parse_block f r1 with
        | .error e => .error e
        | .ok (cons, r2) =>
          match r2.head? with
          | some t =>
            if t.type = .ELSE then
              match parse_block f (r2.drop 1) with
              | .error e => .error e
              | .ok (alt, r3) => .ok (.ifE cond cons (some alt), r3)
            else .ok (.ifE cond cons none, r2)
          | none => .ok (.ifE cond cons none, r2)

def parse_block : Nat → List Token → PRes (List Stmt)
  | 0, _ => .error parserFuelMsg
  | f + 1, toks =>
    match expectTok .LBRACE toks with
    | .error e => .error e
    | .ok (_, r) =>
      match block_loop f r [] with
      | .error e => .error e
      | .ok (stmts, r1) =>
        match expectTok .RBRACE r1 with
        | .error e => .error e
        | .ok (_, r2) => .ok (stmts, r2)

def block_loop : Nat → List Token → List Stmt → PRes (List Stmt)
  | 0, _, _ => .error parserFuelMsg
  | f + 1, toks, acc =>
    match toks.head? with
    | none => .ok (acc, toks)
    | some t =>
      if t.type = .RBRACE then .ok (acc, toks)
      else
        let toks2 := dropComments toks
        match toks2.head? with
        | none => .ok (acc, toks2)
        | some t2 =>
          if t2.type = .RBRACE then .ok (acc, toks2)
          else
            match parse_statement f toks2 with
            | .error e => .error e
            | .ok (st, r) => block_loop f r (acc ++ [st])

def parse_list : Nat → List Token → PRes Expr
  | 0, _ => .error parserFuelMsg
  | f + 1, toks =>
    match expectTok .LBRACKET toks with
    | .error e => .error e
    | .ok (_, r) =>
      match items_loop f .RBRACKET r [] with
      | .error e => .error e
      | .ok (items, r1) =>
        match expectTok .RBRACKET r1 with
        | .error e => .error e
        | .ok (_, r2) => .ok (.listE items, r2)

def parse_set : Nat → List Token → PRes Expr
  | 0, _ => .error parserFuelMsg
  | f + 1, toks =>
    match expectTok .LBRACE toks with
    | .error e => .error e
    | .ok (_, r) =>
      match items_loop f .RBRACE r [] with
      | .error e => .error e
      | .ok (items, r1) =>
        match expectTok .RBRACE r1 with
        | .error e => .error e
        | .ok (_, r2) => .ok (.setE items, r2)

def items_loop : Nat → TokenType → List Token → List Expr → PRes (List Expr)
  | 0, _, _, _ => .error parserFuelMsg
  | f + 1, closer, toks, acc =>
    match toks.head? with
    | none => .ok (acc, toks)
    | some t =>
      if t.type = closer then .ok (acc, toks)
      else
        match parse_expression f toks with
        | .error e => .error e
        | .ok (item, r) =>
          match r.head? with
          | some t2 =>
            if t2.type = .COMMA then items_loop f closer (r.drop 1) (acc ++ [item])
            else .ok (acc ++ [item], r)
          | none => .ok (acc ++ [item], r)

def parse_dictionary : Nat → List Token → PRes Expr
  | 0, _ => .error parserFuelMsg
  | f + 1, toks =>
    match expectTok .DICT_START toks with
    | .error e => .error e
    | .ok (_, r) =>
      match dict_items_loop f r [] with
      | .error e => .error e
      | .ok (items, r1) =>
        match expectTok .RBRACE r1 with
        | .error e => .error e
        | .ok (_, r2) => .ok (.dictE items, r2)

def dict_items_loop : Nat → List Token → List (Expr × Expr) → PRes (List (Expr × Expr))
  | 0, _, _ => .error parserFuelMsg
  | f + 1, toks, acc =>
    match toks.head? with
    | none => .ok (acc, toks)
    | some t =>
      if t.type = .RBRACE then .ok (acc, toks)
      else
        match parse_expression f toks with
        | .error e => .error e
        | .ok (k, r) =>
          match expectTok .COLON r with
          | .error e => .error e
          | .ok (_, r1) =>
            match parse_expression f r1 with
            | .error e => .error e
            | .ok (v, r2) =>
              match r2.head? with
              | some t2 =>
                if t2.type = .COMMA then dict_items_loop f (r2.drop 1) (acc ++ [(k, v)])
                else .ok (acc ++ [(k, v)], r2)
              | none => .ok (acc ++ [(k, v)], r2)

def parse_function : Nat → List Token → PRes Expr
  | 0, _ => .error parserFuelMsg
  | f + 1, toks =>
    match expectTok .PIPE toks with
    | .error e => .error e
    | .ok (_, r) =>
      let pr := fn_params_go f r []
      match expectTok .PIPE pr.2 with
      | .error e => .error e
      | .ok (_, r1) => fn_body f pr.1 r1

def fn_body : Nat → List String → List Token → PRes Expr
  | 0, _, _ => .error parserFuelMsg
  | f + 1, params, toks =>
    match toks.head? with
    | some t =>
      if t.type = .LBRACE then
        match parse_block f toks with
        | .error e => .error e
        | .ok (body, r) => .ok (.function params body, r)
      else
        match parse_expression f toks with
        | .error e => .error e
        | .ok (e, r) => .ok (.function params [.expression e], r)
    | none =>
      match parse_expression f toks with
      | .error e => .error e
      | .ok (e, r) => .ok (.function params [.expression e], r)

def parse_zero_param_function : Nat → List Token → PRes Expr
  | 0, _ => .error parserFuelMsg
  | f + 1, toks =>
    match expectTok .OR toks with
    | .error e => .error e
    | .ok (_, r) => fn_body f [] r

end

/-- `Parser.parse`: statements until the tokens are exhausted. -/
def parse_program_go : Nat → List Token → Except String (List Stmt)
  | 0, _ => .error parserFuelMsg
  | f + 1, toks =>
    match toks with
    | [] => .ok []
    | _ =>
      match parse_statement f toks with
      | .error e => .error e
      | .ok (st, r) =>
        match parse_program_go f r with
        | .error e => .error e
        | .ok sts => .ok (st :: sts)

/-- `Parser(source).parse()`. -/
def parseProgram (source : String) : Except String (List Stmt) :=
  let toks := tokenize source
  parse_program_go (30 * (toks.length + 1)) toks

end Elf

namespace Elf

/-! ### Values (evaluator.py value classes) -/

mutual
inductive Value where
  | int (n : Int)
  | dec (q : Dq)
  | str (s : String)
  | bool (b : Bool)
  | nil
  | list (items : List Value)
  | set (items : List Value)
  | dict (items : List (Value × Value))
  | func (parameters : List String) (body : List Stmt) (closure : Closure)
  | builtin (name : String) (impl : BImpl) (arity : Int) (bound : List Value)
inductive Closure where
  | env (id : Nat)
  | dict (entries : List (String × Value))
inductive BImpl where
  | putsB | pushB | assocB | firstB | restB | sizeB | mapB | filterB | foldB
  | addB | subB | mulB | divB
  | composed (left right : Value)
end

/-- `type(x).__name__[3:]` (and equivalently `.replace('Elf','')`): the
user-visible kind name used in error messages. -/
def kindName : Value → String
  | .int _ => "Integer"
  | .dec _ => "Decimal"
  | .str _ => "String"
  | .bool _ => "Boolean"
  | .nil => "Nil"
  | .list _ => "List"
  | .set _ => "Set"
  | .dict _ => "Dictionary"
  | .func _ _ _ => "Function"
  | .builtin _ _ _ _ => "BuiltinFunction"

def callableB : Value → Bool
  | .func _ _ _ => true
  | .builtin _ _ _ _ => true
  | _ => false

def isDictV : Value → Bool
  | .dict _ => true
  | _ => false

/-! #### Structural equality (`Evaluator.values_equal`)

The Python function recurses through collections; we stratify by a depth
measure (structural on `Value`), then run the recursion on a fuel equal to the
depth of the first argument, which every recursive descent strictly decreases.
This keeps the function total, kernel-computable, and equal to the unbounded
recursion of the source. -/

mutual
def vdepth : Value → Nat
  | .int _ => 1
  | .dec _ => 1
  | .str _ => 1
  | .bool _ => 1
  | .nil => 1
  | .list l => vdepthL l + 1
  | .set l => vdepthL l + 1
  | .dict ps => vdepthP ps + 1
  | .func _ _ _ => 1
  | .builtin _ _ _ _ => 1
def vdepthL : List Value → Nat
  | [] => 0
  | v :: vs => max (vdepth v) (vdepthL vs)
def vdepthP : List (Value × Value) → Nat
  | [] => 0
  | p :: ps => max (max (vdepth p.1) (vdepth p.2)) (vdepthP ps)
end

/-- Elementwise equality of lists with a given element comparison. -/
def listEqWith (rec : Value → Value → Bool) : List Value → List Value → Bool
  | [], [] => true
  | a :: as, b :: bs => rec a b && listEqWith rec as bs
  | _, _ => false

/-- Membership of a value in a list with a given comparison (element first, as
the source compares `values_equal(left_item, right_item)` etc.). -/
def memWith (rec : Value → Value → Bool) (a : Value) : List Value → Bool
  | [] => false
  | b :: bs => rec a b || memWith rec a bs

/-- Every left element occurs somewhere on the right. -/
def setSubWith (rec : Value → Value → Bool) : List Value → List Value → Bool
  | [], _ => true
  | a :: as, r => memWith rec a r && setSubWith rec as r

def pairMemWith (rec : Value → Value → Bool) (p : Value × Value) : List (Value × Value) → Bool
  | [] => false
  | q :: qs => (rec p.1 q.1 && rec p.2 q.2) || pairMemWith rec p qs

def dictSubWith (rec : Value → Value → Bool) : List (Value × Value) → List (Value × Value) → Bool
  | [], _ => true
  | p :: ps, r => pairMemWith rec p r && dictSubWith rec ps r

/-- One unfolding of `values_equal`, with `rec` standing for the recursive
calls on collection members. -/
def veqStep (rec : Value → Value → Bool) : Value → Value → Bool
  | .int a, .int b => a == b
  | .dec a, .dec b => a.eqb b
  | .str a, .str b => a == b
  | .bool a, .bool b => a == b
  | .nil, .nil => true
  | .list l, .list r => l.length == r.length && listEqWith rec l r
  | .set l, .set r => l.length == r.length && setSubWith rec l r
  | .dict l, .dict r => l.length == r.length && dictSubWith rec l r
  | _, _ => false

def veqF : Nat → Value → Value → Bool
  | 0, _, _ => false
  | f + 1, a, b => veqStep (veqF f) a b

/-- `Evaluator.values_equal`: structural equality; kinds must match, `nil`
values are all equal, lists compare pointwise, sets and dictionaries compare as
unordered collections, functions and builtins are never equal. -/
def values_equal (a b : Value) : Bool := veqF (vdepth a) a b

/-! #### Truthiness (`Evaluator.is_truthy`) -/

def is_truthy : Value → Bool
  | .bool b => b
  | .nil => false
  | .int n => n != 0
  | .dec q => !q.isZero
  | .str s => s != ""
  | .list l => !l.isEmpty
  | .set l => !l.isEmpty
  | .dict ps => !ps.isEmpty
  | _ => true

/-! #### Print order keys (`ElfSet._sort_key` / `ElfDictionary._sort_key`) -/

inductive SKey where
  | kInt (n : Int)
  | kDec (q : Dq)
  | kStr (s : String)
  | kBool (b : Bool)
  | kNil
  | kOther (s : String)

def SKey.rank : SKey → Nat
  | .kInt _ => 0
  | .kDec _ => 1
  | .kStr _ => 2
  | .kBool _ => 3
  | .kNil => 4
  | .kOther _ => 5

/-- Strict order on Python sort-key tuples `(rank, payload)`.  Within a rank,
integer and decimal payloads compare numerically (CPython's `<` on finite
floats is exact on their values, so the binary64 decimal keys produced by
`skeyOf` compare exactly), strings by code point, booleans `false < true`. -/
def keyLt : SKey → SKey → Bool
  | .kInt a, .kInt b => a < b
  | .kDec a, .kDec b => a.ltb b
  | .kStr a, .kStr b => strLt a b
  | .kBool a, .kBool b => !a && b
  | .kNil, .kNil => false
  | .kOther a, .kOther b => strLt a b
  | a, b => a.rank < b.rank

/-- The sort key of a value whose printed form is `rv`.  A decimal is keyed by
`float(value.value)` — the binary64 rounding of the stored decimal — so two
decimals that are exactly unequal but convert to the same double carry equal
keys and keep their insertion order under the stable sort; other non-scalar
kinds use `(5, str(value))`. -/
def skeyOf (v : Value) (rv : String) : SKey :=
  match v with
  | .int n => .kInt n
  | .dec q => .kDec (pyFloat q)
  | .str s => .kStr s
  | .bool b => .kBool b
  | .nil => .kNil
  | _ => .kOther rv

/-- Stable insertion of a keyed element into a key-sorted list: the new element
goes before the first entry that is not strictly below it, which reproduces the
result of Python's stable ascending sort. -/
def insertPair (p : SKey × String) : List (SKey × String) → List (SKey × String)
  | [] => [p]
  | q :: qs => if keyLt q.1 p.1 then q :: insertPair p qs else p :: q :: qs

def sortPairs : List (SKey × String) → List (SKey × String)
  | [] => []
  | p :: ps => insertPair p (sortPairs ps)

/-! #### Printed forms (`__repr__` of the value classes) -/

/-- `ElfString.__repr__`: surround with quotes after escaping backslash,
newline and tab (three sequential `str.replace` calls). -/
def pyStrRepr (s : String) : String :=
  let e1 := strReplace s ['\\'] ['\\', '\\']
  let e2 := strReplace e1 ['\n'] ['\\', 'n']
  let e3 := strReplace e2 ['\t'] ['\\', 't']
  "\"" ++ e3 ++ "\""

/-- `str(Decimal)` as used for string concatenation with a decimal: the plain
decimal expansion (trailing-zero significance of the stored `Decimal` is not
representable in the exact fraction model; no modelled program depends on it). -/
def pyDecimalStr (q : Dq) : String :=
  if q.isWhole then intStr q.trunc
  else
    let k := max (multOf 2 q.den q.den) (multOf 5 q.den q.den)
    let m : Int := (q.num * 10 ^ k).tdiv (q.den : Int)
    let sgn := if q.num < 0 then "-" else ""
    let digits := natDigits (m.natAbs + 1) m.natAbs
    let padded := if digits.length ≥ k + 1 then digits
                  else List.replicate (k + 1 - digits.length) '0' ++ digits
    let ip := padded.take (padded.length - k)
    let fp := padded.drop (padded.length - k)
    sgn ++ String.mk ip ++ "." ++ String.mk fp

def joinComma (l : List String) : String := String.intercalate ", " l

/-- One fuel layer of the printers; collections print members at the next
depth, so fuel `vdepth v` always suffices. -/
def reprF : Nat → Value → String
  | 0, _ => ""
  | f + 1, v =>
    match v with
    | .int n => intStr n
    | .dec q => decStr q
    | .str s => pyStrRepr s
    | .bool b => if b then "true" else "false"
    | .nil => "nil"
    | .list items => "[" ++ joinComma (items.map (reprF f)) ++ "]"
    | .set items =>
      let keyed := items.map (fun x => (skeyOf x (reprF f x), reprF f x))
      "\x7b" ++ joinComma ((sortPairs keyed).map Prod.snd) ++ "\x7d"
    | .dict pairs =>
      let keyed := pairs.map (fun p =>
        (skeyOf p.1 (reprF f p.1), reprF f p.1 ++ ": " ++ reprF f p.2))
      "#\x7b" ++ joinComma ((sortPairs keyed).map Prod.snd) ++ "\x7d"
    | .func ps _ _ => "|" ++ joinComma ps ++ "| \x7b [closure] \x7d"
    | .builtin nm _ ar bound =>
      if bound.isEmpty then "<builtin " ++ nm ++ ">"
      else "<partial " ++ nm ++ "(" ++ natStr bound.length ++ "/" ++ intStr ar ++ ")>"

/-- `str(value)`: the printed form of a value (sets and dictionaries sorted by
the print order above; Python's sort is stable, reproduced by the stable
insertion sort). -/
def reprValue (v : Value) : String := reprF (vdepth v) v

end Elf

namespace Elf

/-! ### Arithmetic and comparison (evaluator.py) -/

/-- The numeric payload of an Integer or Decimal as an exact fraction. -/
def valDq : Value → Dq
  | .int n => Dq.ofInt n
  | .dec q => q
  | _ => Dq.ofInt 0

def isNumericV : Value → Bool
  | .int _ => true
  | .dec _ => true
  | _ => false

/-- Repeat a string `n` times (`str * int` in Python, `n ≥ 0`). -/
def strRepeat (s : String) (n : Nat) : String := joinAll (List.replicate n s)

/-- Left-biased set union used by `Set + Set`: walk the right items, appending
each one that is not already present (checked against the growing result). -/
def set_union_go : List Value → List Value → List Value
  | acc, [] => acc
  | acc, x :: xs =>
    if acc.any (fun e => values_equal e x) then set_union_go acc xs
    else set_union_go (acc ++ [x]) xs

/-- Replace the first pair whose key structurally equals `rk`; report whether a
replacement happened. -/
def merge_one : List (Value × Value) → Value → Value → List (Value × Value) × Bool
  | [], _, _ => ([], false)
  | (k0, v0) :: rest, rk, rv =>
    if values_equal k0 rk then ((rk, rv) :: rest, true)
    else
      let r := merge_one rest rk rv
      ((k0, v0) :: r.1, r.2)

/-- Right-biased dictionary merge used by `Dictionary + Dictionary`. -/
def dict_merge_go : List (Value × Value) → List (Value × Value) → List (Value × Value)
  | acc, [] => acc
  | acc, (rk, rv) :: rest =>
    let m := merge_one acc rk rv
    dict_merge_go (if m.2 then m.1 else acc ++ [(rk, rv)]) rest

/-- `Evaluator.add_values`. -/
def add_values : Value → Value → Except String Value
  | .int a, .int b => .ok (.int (a + b))
  | .int a, .dec b => .ok (.dec (elfDecimalOfFloat (roundDouble ((pyFloat (Dq.ofInt a)).addE (pyFloat b)))))
  | .dec a, .int b => .ok (.dec (elfDecimalOfFloat (roundDouble ((pyFloat a).addE (pyFloat (Dq.ofInt b))))))
  | .dec a, .dec b => .ok (.dec (elfDecimalOfFloat (roundDouble ((pyFloat a).addE (pyFloat b)))))
  | .str a, .str b => .ok (.str (a ++ b))
  | .str a, .int b => .ok (.str (a ++ intStr b))
  | .str a, .dec b => .ok (.str (a ++ pyDecimalStr b))
  | .str a, r => .ok (.str (a ++ reprValue r))
  | .int a, .str b => .ok (.str (intStr a ++ b))
  | .dec a, .str b => .ok (.str (pyDecimalStr a ++ b))
  | l, .str b => .ok (.str (reprValue l ++ b))
  | .list a, .list b => .ok (.list (a ++ b))
  | .list _, .int _ => .error "Unsupported operation: List + Integer"
  | .set a, .set b => .ok (.set (set_union_go a b))
  | .set _, .int _ => .error "Unsupported operation: Set + Integer"
  | .dict a, .dict b => .ok (.dict (dict_merge_go a b))
  | l, r => .error ("Unsupported operation: " ++ kindName l ++ " + " ++ kindName r)

/-- `Evaluator.subtract_values`. -/
def subtract_values : Value → Value → Except String Value
  | .int a, .int b => .ok (.int (a - b))
  | .int a, .dec b => .ok (.dec (elfDecimalOfFloat (roundDouble ((pyFloat (Dq.ofInt a)).subE (pyFloat b)))))
  | .dec a, .int b => .ok (.dec (elfDecimalOfFloat (roundDouble ((pyFloat a).subE (pyFloat (Dq.ofInt b))))))
  | .dec a, .dec b => .ok (.dec (elfDecimalOfFloat (roundDouble ((pyFloat a).subE (pyFloat b)))))
  | l, r => .error ("Unsupported operation: " ++ kindName l ++ " - " ++ kindName r)

/-- `Evaluator.multiply_values`. -/
def multiply_values : Value → Value → Except String Value
  | .int a, .int b => .ok (.int (a * b))
  | .int a, .dec b => .ok (.dec (elfDecimalOfFloat (roundDouble ((pyFloat (Dq.ofInt a)).mulE (pyFloat b)))))
  | .dec a, .int b => .ok (.dec (elfDecimalOfFloat (roundDouble ((pyFloat a).mulE (pyFloat (Dq.ofInt b))))))
  | .dec a, .dec b => .ok (.dec (elfDecimalOfFloat (roundDouble ((pyFloat a).mulE (pyFloat b)))))
  | .str a, .int b =>
    if b < 0 then .error "Unsupported operation: String * Integer (< 0)"
    else .ok (.str (strRepeat a b.toNat))
  | .str _, .dec _ => .error "Unsupported operation: String * Decimal"
  | l, r => .error ("Unsupported operation: " ++ kindName l ++ " * " ++ kindName r)

/-- `Evaluator.divide_values`.  `Integer / Integer` models CPython
`int(a / b)`: the exact quotient is rounded to the nearest binary64 double and
then truncated toward zero. -/
def divide_values : Value → Value → Except String Value
  | .int a, .int b =>
    if b = 0 then .error "Division by zero"
    else .ok (.int (roundDouble ((Dq.ofInt a).divE (Dq.ofInt b))).trunc)
  | .int a, .dec b =>
    if (pyFloat b).isZero then .error "Division by zero"
    else .ok (.dec (elfDecimalOfFloat (roundDouble ((pyFloat (Dq.ofInt a)).divE (pyFloat b)))))
  | .dec a, .int b =>
    if (pyFloat (Dq.ofInt b)).isZero then .error "Division by zero"
    else .ok (.dec (elfDecimalOfFloat (roundDouble ((pyFloat a).divE (pyFloat (Dq.ofInt b))))))
  | .dec a, .dec b =>
    if (pyFloat b).isZero then .error "Division by zero"
    else .ok (.dec (elfDecimalOfFloat (roundDouble ((pyFloat a).divE (pyFloat b)))))
  | l, r => .error ("Unsupported operation: " ++ kindName l ++ " / " ++ kindName r)

/-- `Evaluator.compare_values`: −1, 0 or 1; only numeric↔numeric and
String↔String compare (numeric comparison is exact via `Decimal`). -/
def compare_values : Value → Value → Except String Int
  | .int a, .int b => .ok ((if a > b then 1 else 0) - (if a < b then 1 else 0))
  | .int a, .dec b =>
    .ok ((if b.ltb (Dq.ofInt a) then 1 else 0) - (if (Dq.ofInt a).ltb b then 1 else 0))
  | .dec a, .int b =>
    .ok ((if (Dq.ofInt b).ltb a then 1 else 0) - (if a.ltb (Dq.ofInt b) then 1 else 0))
  | .dec a, .dec b =>
    .ok ((if b.ltb a then 1 else 0) - (if a.ltb b then 1 else 0))
  | .str a, .str b => .ok ((if strLt b a then 1 else 0) - (if strLt a b then 1 else 0))
  | l, r => .error ("Cannot compare " ++ kindName l ++ " with " ++ kindName r)

/-! ### Indexing (`Evaluator.index_value`) -/

/-- Lookup in the ordered pair list of a dictionary (key compared first, as in
the source). -/
def dict_lookup : List (Value × Value) → Value → Value
  | [], _ => .nil
  | (k, v) :: rest, ix => if values_equal k ix then v else dict_lookup rest ix

def index_value : Value → Value → Except String Value
  | .str s, ix =>
    match ix with
    | .int i =>
      let len : Int := s.data.length
      let j : Int := if i < 0 then len + i else i
      if 0 ≤ j ∧ j < len then
        .ok (.str (String.mk ((s.data.drop j.toNat).take 1)))
      else .ok .nil
    | v => .error ("Unable to perform index operation, found: String[" ++ kindName v ++ "]")
  | .list items, ix =>
    match ix with
    | .int i =>
      let len : Int := items.length
      let j : Int := if i < 0 then len + i else i
      if 0 ≤ j ∧ j < len then
        .ok (items.getD j.toNat .nil)
      else .ok .nil
    | v => .error ("Unable to perform index operation, found: List[" ++ kindName v ++ "]")
  | .dict pairs, ix => .ok (dict_lookup pairs ix)
  | t, _ => .error ("Cannot index into " ++ kindName t)

/-! ### Pure collection builtins -/

/-- `Evaluator.builtin_push`. -/
def builtin_push (item coll : Value) : Except String Value :=
  match coll with
  | .list items => .ok (.list (items ++ [item]))
  | .set items =>
    if items.any (fun e => values_equal e item) then .ok (.set items)
    else .ok (.set (items ++ [item]))
  | c => .error ("Cannot push to " ++ kindName c)

/-- `Evaluator.builtin_assoc`. -/
def builtin_assoc (key value d : Value) : Except String Value :=
  match d with
  | .dict pairs =>
    if pairs.any (fun p => values_equal p.1 key) then
      .ok (.dict (pairs.map (fun p => if values_equal p.1 key then (key, value) else p)))
    else .ok (.dict (pairs ++ [(key, value)]))
  | c => .error ("Cannot assoc to " ++ kindName c)

/-- `Evaluator.builtin_first`. -/
def builtin_first : Value → Value
  | .list items => match items with | [] => .nil | v :: _ => v
  | .str s => match s.data with | [] => .nil | c :: _ => .str (String.mk [c])
  | .set items => match items with | [] => .nil | v :: _ => v
  | .dict pairs => match pairs with | [] => .nil | (k, _) :: _ => k
  | _ => .nil

/-- `Evaluator.builtin_rest`. -/
def builtin_rest : Value → Value
  | .list items => .list (items.drop 1)
  | .str s => .str (String.mk (s.data.drop 1))
  | .set items => .set (items.drop 1)
  | .dict pairs => .dict (pairs.drop 1)
  | _ => .nil

/-- `Evaluator.builtin_size` (strings measured in UTF-8 bytes). -/
def builtin_size : Value → Value
  | .list items => .int items.length
  | .set items => .int items.length
  | .dict pairs => .int pairs.length
  | .str s => .int (s.data.foldl (fun a c => a + c.utf8Size) 0)
  | _ => .nil

/-- `Evaluator.compose_functions` (the produced unary builtin's invocation is
interpreted by the evaluator's `composed` dispatch). -/
def compose_functions (l r : Value) : Except String Value :=
  if !callableB l then .error ("Cannot compose non-function: " ++ kindName l)
  else if !callableB r then .error ("Cannot compose non-function: " ++ kindName r)
  else .ok (.builtin ("(" ++ reprValue l ++ ">>" ++ reprValue r ++ ")") (.composed l r) 1 [])

def compose_fold : Value → List Value → Except String Value
  | acc, [] => .ok acc
  | acc, f :: fs =>
    match compose_functions acc f with
    | .error e => .error e
    | .ok c => compose_fold c fs

end Elf

namespace Elf

/-! ### Environments and evaluator state (`Environment`, output buffer)

Python `Environment` objects are mutable and shared through closures; they are
modelled as a store of frames addressed by index, carried through the
evaluation together with the output buffer.  A runtime error aborts evaluation
carrying the state (hence the buffered output) at the point of failure. -/

structure Frame where
  vars : List (String × Value × Bool)
  parent : Option Nat

structure EvalState where
  frames : List Frame
  output : List String

inductive Err where
  | rt (msg : String)
  | fuelOut

inductive Res (α : Type) where
  | ok (a : α) (s : EvalState)
  | err (e : Err) (s : EvalState)

/-- Lift a pure `Except` result (a possible `RuntimeError`) into `Res`. -/
def liftPure (r : Except String α) (s : EvalState) : Res α :=
  match r with
  | .ok a => .ok a s
  | .error m => .err (.rt m) s

/-- First binding of a name in a frame (`define` prepends, so the first match
is the current value and mutability flag). -/
def varsLookup : List (String × Value × Bool) → String → Option (Value × Bool)
  | [], _ => none
  | (n, v, m) :: rest, name => if n = name then some (v, m) else varsLookup rest name

/-- Replace the value of the first binding of a name (Python dict assignment;
the mutability flag is untouched). -/
def varsSet : List (String × Value × Bool) → String → Value → List (String × Value × Bool)
  | [], _, _ => []
  | (n, v0, m) :: rest, name, v =>
    if n = name then (n, v, m) :: rest else (n, v0, m) :: varsSet rest name v

/-- `Environment.define`: bind (or rebind) a name in the given frame. -/
def defineVar (s : EvalState) (fid : Nat) (name : String) (v : Value) (m : Bool) : EvalState :=
  match s.frames.get? fid with
  | some fr => { s with frames := s.frames.set fid { fr with vars := (name, v, m) :: fr.vars } }
  | none => s

/-- `Environment.get`: walk the parent chain (parents are always older frames,
so the frame count bounds the chain length). -/
def lookupVar_go : Nat → EvalState → Nat → String → Option Value
  | 0, _, _, _ => none
  | f + 1, s, fid, name =>
    match s.frames.get? fid with
    | none => none
    | some fr =>
      match varsLookup fr.vars name with
      | some (v, _) => some v
      | none =>
        match fr.parent with
        | some p => lookupVar_go f s p name
        | none => none

def lookupVar (s : EvalState) (fid : Nat) (name : String) : Option Value :=
  lookupVar_go (s.frames.length + 1) s fid name

/-- `Environment.assign`: find the owning frame, check mutability, set. -/
def assignVar_go : Nat → EvalState → Nat → String → Value → Except String EvalState
  | 0, _, _, name, _ => .error ("Identifier can not be found: " ++ name)
  | f + 1, s, fid, name, v =>
    match s.frames.get? fid with
    | none => .error ("Identifier can not be found: " ++ name)
    | some fr =>
      match varsLookup fr.vars name with
      | some (_, m) =>
        if m then
          .ok { s with frames := s.frames.set fid { fr with vars := varsSet fr.vars name v } }
        else .error ("Variable " ++ sq ++ name ++ sq ++ " is not mutable")
      | none =>
        match fr.parent with
        | some p => assignVar_go f s p name v
        | none => .error ("Identifier can not be found: " ++ name)

def assignVar (s : EvalState) (fid : Nat) (name : String) (v : Value) : Except String EvalState :=
  assignVar_go (s.frames.length + 1) s fid name v

/-- Sequential `define` of immutable bindings (closure dict entries, then
parameters, in the source's order). -/
def defineMany : EvalState → Nat → List (String × Value) → EvalState
  | s, _, [] => s
  | s, fid, (n, v) :: rest => defineMany (defineVar s fid n v false) fid rest

/-- Python dict update: replace the first entry with the name, else append. -/
def centriesUpdate : List (String × Value) → String → Value → List (String × Value)
  | [], n, v => [(n, v)]
  | (n0, v0) :: rest, n, v =>
    if n0 = n then (n0, v) :: rest else (n0, v0) :: centriesUpdate rest n v

def bindIntoDict : List (String × Value) → List (String × Value) → List (String × Value)
  | es, [] => es
  | es, (n, v) :: rest => bindIntoDict (centriesUpdate es n v) rest

/-- The global environment of a fresh `Evaluator`: the builtin bindings, in
the order the constructor defines them. -/
def initVars : List (String × Value × Bool) :=
  [("puts", .builtin "puts" .putsB (-1) [], false),
   ("push", .builtin "push" .pushB 2 [], false),
   ("assoc", .builtin "assoc" .assocB 3 [], false),
   ("first", .builtin "first" .firstB 1 [], false),
   ("rest", .builtin "rest" .restB 1 [], false),
   ("size", .builtin "size" .sizeB 1 [], false),
   ("map", .builtin "map" .mapB 2 [], false),
   ("filter", .builtin "filter" .filterB 2 [], false),
   ("fold", .builtin "fold" .foldB 3 [], false),
   ("+", .builtin "+" .addB 2 [], false),
   ("-", .builtin "-" .subB 2 [], false),
   ("*", .builtin "*" .mulB 2 [], false),
   ("/", .builtin "/" .divB 2 [], false)]

def initState : EvalState := ⟨[⟨initVars, none⟩], []⟩

/-! ### The tree-walking evaluator (`Evaluator`)

All functions take a fuel argument modelling the CPython recursion limit; every
inter-call consumes one unit.  The only fuel-preserving descent is the
`composed` builtin dispatch, which recurses structurally into the composed
value. -/

mutual

def evaluate_expression : (fuel : Nat) → Expr → Nat → EvalState → Res Value
  | 0, _, _, s => .err .fuelOut s
  | f + 1, e, env, s =>
    match e with
    | .integer v => .ok (.int (pyParseInt v)) s
    | .decimal v => .ok (.dec (pyParseDq v)) s
    | .stringE v => .ok (.str v) s
    | .boolean b => .ok (.bool b) s
    | .nilE => .ok .nil s
    | .identifier n =>
      match lookupVar s env n with
      | some v => .ok v s
      | none => .err (.rt ("Identifier can not be found: " ++ n)) s
    | .letE n ve =>
      match evaluate_expression f ve env s with
      | .ok v s1 => .ok v (defineVar s1 env n v false)
      | .err er s1 => .err er s1
    | .mutableLet n ve =>
      match evaluate_expression f ve env s with
      | .ok v s1 => .ok v (defineVar s1 env n v true)
      | .err er s1 => .err er s1
    | .assignment n ve =>
      match evaluate_expression f ve env s with
      | .ok v s1 =>
        match assignVar s1 env n v with
        | .ok s2 => .ok v s2
        | .error m => .err (.rt m) s1
      | .err er s1 => .err er s1
    | .call fe argEs =>
      match evaluate_expression f fe env s with
      | .ok fv s1 =>
        match eval_list f argEs env s1 with
        | .ok vs s2 => applyCallable f fv vs env s2
        | .err er s2 => .err er s2
      | .err er s1 => .err er s1
    | .binop op l r => evaluate_binop f op l r env s
    | .unop op oe =>
      match evaluate_expression f oe env s with
      | .ok v s1 =>
        if op = "-" then
          match v with
          | .int n => .ok (.int (-n)) s1
          | .dec q => .ok (.dec q.negE) s1
          | w => .err (.rt ("Unsupported operation: -" ++ kindName w)) s1
        else .err (.rt ("Unknown prefix operator: " ++ op)) s1
      | .err er s1 => .err er s1
    | .listE items =>
      match eval_list f items env s with
      | .ok vs s1 => .ok (.list vs) s1
      | .err er s1 => .err er s1
    | .setE items =>
      match eval_list f items env s with
      | .ok vs s1 =>
        if vs.any isDictV then
          .err (.rt "Unable to include a Dictionary within a Set") s1
        else .ok (.set vs) s1
      | .err er s1 => .err er s1
    | .dictE pairs =>
      match eval_pairs f pairs env s with
      | .ok ps s1 => .ok (.dict ps) s1
      | .err er s1 => .err er s1
    | .function ps body => .ok (.func ps body (.env env)) s
    | .ifE cond cons alt =>
      match evaluate_expression f cond env s with
      | .ok c s1 =>
        if is_truthy c then evaluate_block_go f cons env s1 .nil
        else
          match alt with
          | some b => evaluate_block_go f b env s1 .nil
          | none => .ok .nil s1
      | .err er s1 => .err er s1
    | .indexE le ie =>
      match evaluate_expression f le env s with
      | .ok tv s1 =>
        match evaluate_expression f ie env s1 with
        | .ok iv s2 => liftPure (index_value tv iv) s2
        | .err er s2 => .err er s2
      | .err er s1 => .err er s1
    | .composition fns =>
      match eval_list f fns env s with
      | .ok vs s1 =>
        match vs with
        | v0 :: v1 :: rest => liftPure (compose_fold v0 (v1 :: rest)) s1
        | _ => .err (.rt "Function composition requires at least 2 functions") s1
      | .err er s1 => .err er s1
    | .thread init fns =>
      match evaluate_expression f init env s with
      | .ok v0 s1 =>
        match eval_list f fns env s1 with
        | .ok vs s2 => thread_fold f v0 vs s2
        | .err er s2 => .err er s2
      | .err er s1 => .err er s1

termination_by structural fuel => fuel

def eval_list : (fuel : Nat) → List Expr → Nat → EvalState → Res (List Value)
  | 0, _, _, s => .err .fuelOut s
  | _ + 1, [], _, s => .ok [] s
  | f + 1, e :: rest, env, s =>
    match evaluate_expression f e env s with
    | .ok v s1 =>
      match eval_list f rest env s1 with
      | .ok vs s2 => .ok (v :: vs) s2
      | .err er s2 => .err er s2
    | .err er s1 => .err er s1

termination_by structural fuel => fuel

def eval_pairs : (fuel : Nat) → List (Expr × Expr) → Nat → EvalState → Res (List (Value × Value))
  | 0, _, _, s => .err .fuelOut s
  | _ + 1, [], _, s => .ok [] s
  | f + 1, (ke, ve) :: rest, env, s =>
    match evaluate_expression f ke env s with
    | .ok kv s1 =>
      match evaluate_expression f ve env s1 with
      | .ok vv s2 =>
        if isDictV kv then
          .err (.rt "Unable to use a Dictionary as a Dictionary key") s2
        else
          match eval_pairs f rest env s2 with
          | .ok ps s3 => .ok ((kv, vv) :: ps) s3
          | .err er s3 => .err er s3
      | .err er s2 => .err er s2
    | .err er s1 => .err er s1

termination_by structural fuel => fuel

def evaluate_binop : (fuel : Nat) → String → Expr → Expr → Nat → EvalState → Res Value
  | 0, _, _, _, _, s => .err .fuelOut s
  | f + 1, op, l, r, env, s =>
    match evaluate_expression f l env s with
    | .ok lv s1 =>
      match evaluate_expression f r env s1 with
      | .ok rv s2 =>
        if op = "+" then liftPure (add_values lv rv) s2
        else if op = "-" then liftPure (subtract_values lv rv) s2
        else if op = "*" then liftPure (multiply_values lv rv) s2
        else if op = "/" then liftPure (divide_values lv rv) s2
        else if op = "==" then .ok (.bool (values_equal lv rv)) s2
        else if op = "!=" then .ok (.bool (!values_equal lv rv)) s2
        else if op = ">" then
          match compare_values lv rv with
          | .ok c => .ok (.bool (c > 0)) s2
          | .error m => .err (.rt m) s2
        else if op = "<" then
          match compare_values lv rv with
          | .ok c => .ok (.bool (c < 0)) s2
          | .error m => .err (.rt m) s2
        else if op = ">=" then
          match compare_values lv rv with
          | .ok c => .ok (.bool (c ≥ 0)) s2
          | .error m => .err (.rt m) s2
        else if op = "<=" then
          match compare_values lv rv with
          | .ok c => .ok (.bool (c ≤ 0)) s2
          | .error m => .err (.rt m) s2
        else if op = "&&" then .ok (.bool (is_truthy lv && is_truthy rv)) s2
        else if op = "||" then .ok (.bool (is_truthy lv || is_truthy rv)) s2
        else if op = ">>" then liftPure (compose_functions lv rv) s2
        else if op = "|>" then thread_value f lv rv s2
        else .err (.rt ("Unknown operator: " ++ op)) s2
      | .err er s2 => .err er s2
    | .err er s1 => .err er s1

termination_by structural fuel => fuel

def evaluate_statement : (fuel : Nat) → Stmt → Nat → EvalState → Res Value
  | 0, _, _, s => .err .fuelOut s
  | f + 1, st, env, s =>
    match st with
    | .comment _ => .ok .nil s
    | .expression e => evaluate_expression f e env s

termination_by structural fuel => fuel

def evaluate_block_go : (fuel : Nat) → List Stmt → Nat → EvalState → Value → Res Value
  | 0, _, _, s, _ => .err .fuelOut s
  | _ + 1, [], _, s, result => .ok result s
  | f + 1, st :: rest, env, s, _ =>
    match evaluate_statement f st env s with
    | .ok v s1 => evaluate_block_go f rest env s1 v
    | .err er s1 => .err er s1

termination_by structural fuel => fuel

def call_user_function : (fuel : Nat) → List String → List Stmt → Closure → List Value → Nat →
    EvalState → Res Value
  | 0, _, _, _, _, _, s => .err .fuelOut s
  | f + 1, params, body, clo, args, env, s =>
    if args.length < params.length then
      -- partial application: a dict closure of the bound arguments only; an
      -- Environment closure is discarded here (the source's TODO branch)
      match clo with
      | .env _ => .ok (.func (params.drop args.length) body (.dict (bindIntoDict [] (params.zip args)))) s
      | .dict entries =>
        .ok (.func (params.drop args.length) body (.dict (bindIntoDict entries (params.zip args)))) s
    else
      match clo with
      | .env cid =>
        let fid := s.frames.length
        let s1 : EvalState := { s with frames := s.frames ++ [⟨[], some cid⟩] }
        let s2 := defineMany s1 fid (params.zip args)
        evaluate_block_go f body fid s2 .nil
      | .dict entries =>
        let fid := s.frames.length
        let s1 : EvalState := { s with frames := s.frames ++ [⟨[], some env⟩] }
        let s2 := defineMany s1 fid entries
        let s3 := defineMany s2 fid (params.zip args)
        evaluate_block_go f body fid s3 .nil

termination_by structural fuel => fuel

def applyCallable : (fuel : Nat) → Value → List Value → Nat → EvalState → Res Value
  | 0, _, _, _, s => .err .fuelOut s
  | f + 1, cal, args, env, s =>
    match cal with
    | .func ps body clo => call_user_function f ps body clo args env s
    | .builtin nm impl ar bound =>
      let all := bound ++ args
      if ar == -1 then
        match impl with
        | .putsB =>
          .ok .nil { s with output := s.output ++ all.map (fun a => reprValue a ++ " ") ++ ["\n"] }
        | _ => .err (.rt "internal: unexpected variadic builtin") s
      else if (all.length : Int) < ar then .ok (.builtin nm impl ar all) s
      else
        match impl, all.take ar.toNat with
        | .composed lf rf, xs =>
          match applyCallable f lf xs 0 s with
          | .ok i s1 => applyCallable f rf [i] 0 s1
          | .err er s1 => .err er s1
        | .putsB, _ => .err (.rt "internal: unexpected variadic builtin") s
        | .pushB, [item, coll] => liftPure (builtin_push item coll) s
        | .assocB, [k, v, d] => liftPure (builtin_assoc k v d) s
        | .firstB, [c] => .ok (builtin_first c) s
        | .restB, [c] => .ok (builtin_rest c) s
        | .sizeB, [c] => .ok (builtin_size c) s
        | .addB, [a, b] => liftPure (add_values a b) s
        | .subB, [a, b] => liftPure (subtract_values a b) s
        | .mulB, [a, b] => liftPure (multiply_values a b) s
        | .divB, [a, b] => liftPure (divide_values a b) s
        | .mapB, [fn, lst] =>
          match lst with
          | .list items =>
            if callableB fn then map_go f fn items [] s
            else .err (.rt ("Unexpected argument: map(" ++ kindName fn ++ ", List)")) s
          | _ => .err (.rt ("Unexpected argument: map(" ++ kindName fn ++ ", " ++ kindName lst ++ ")")) s
        | .filterB, [fn, lst] =>
          match lst with
          | .list items =>
            if callableB fn then filter_go f fn items [] s
            else .err (.rt ("Unexpected argument: filter(" ++ kindName fn ++ ", List)")) s
          | _ => .err (.rt ("Unexpected argument: filter(" ++ kindName fn ++ ", " ++ kindName lst ++ ")")) s
        | .foldB, [init, fn, lst] =>
          match lst with
          | .list items =>
            if callableB fn then fold_go f fn items init s
            else .err (.rt ("Unexpected argument: fold(" ++ kindName init ++ ", " ++
              kindName fn ++ ", List)")) s
          | _ => .err (.rt ("Unexpected argument: fold(" ++ kindName init ++ ", " ++
              kindName fn ++ ", " ++ kindName lst ++ ")")) s
        | _, _ => .err (.rt "internal: builtin arity") s
    | v => .err (.rt ("Expected a Function, found: " ++ kindName v)) s

termination_by structural fuel => fuel

def map_go : (fuel : Nat) → Value → List Value → List Value → EvalState → Res Value
  | 0, _, _, _, s => .err .fuelOut s
  | _ + 1, _, [], acc, s => .ok (.list acc) s
  | f + 1, fn, x :: xs, acc, s =>
    match applyCallable f fn [x] 0 s with
    | .ok v s1 => map_go f fn xs (acc ++ [v]) s1
    | .err er s1 => .err er s1

termination_by structural fuel => fuel

def filter_go : (fuel : Nat) → Value → List Value → List Value → EvalState → Res Value
  | 0, _, _, _, s => .err .fuelOut s
  | _ + 1, _, [], acc, s => .ok (.list acc) s
  | f + 1, fn, x :: xs, acc, s =>
    match applyCallable f fn [x] 0 s with
    | .ok v s1 => filter_go f fn xs (if is_truthy v then acc ++ [x] else acc) s1
    | .err er s1 => .err er s1

termination_by structural fuel => fuel

def fold_go : (fuel : Nat) → Value → List Value → Value → EvalState → Res Value
  | 0, _, _, _, s => .err .fuelOut s
  | _ + 1, _, [], acc, s => .ok acc s
  | f + 1, fn, x :: xs, acc, s =>
    match applyCallable f fn [acc, x] 0 s with
    | .ok v s1 => fold_go f fn xs v s1
    | .err er s1 => .err er s1

termination_by structural fuel => fuel

def thread_value : (fuel : Nat) → Value → Value → EvalState → Res Value
  | 0, _, _, s => .err .fuelOut s
  | f + 1, v, fn, s =>
    if callableB fn then applyCallable f fn [v] 0 s
    else .err (.rt ("Cannot thread into non-function: " ++ kindName fn)) s

termination_by structural fuel => fuel

def thread_fold : (fuel : Nat) → Value → List Value → EvalState → Res Value
  | 0, _, _, s => .err .fuelOut s
  | _ + 1, v, [], s => .ok v s
  | f + 1, v, g :: gs, s =>
    match thread_value f v g s with
    | .ok v1 s1 => thread_fold f v1 gs s1
    | .err er s1 => .err er s1

termination_by structural fuel => fuel

end

/-- The evaluation fuel handed to each top-level statement, modelling the
CPython recursion limit. -/
def evalFuel : Nat := 1000

/-- The statement loop of `Evaluator.evaluate_program`: track the last
non-comment result, starting from `nil`. -/
def run_statements : List Stmt → EvalState → Value → Res Value
  | [], s, last => .ok last s
  | st :: rest, s, last =>
    match evaluate_statement evalFuel st 0 s with
    | .ok v s1 =>
      run_statements rest s1 (match st with | .comment _ => last | .expression _ => v)
    | .err er s1 => .err er s1

/-- `Evaluator.evaluate_program`: run the statements, then append the final
value (or `[Error] <message>` on a runtime error) to the output buffer and
join it.  Fuel exhaustion models an uncaught `RecursionError`. -/
def evaluator_evaluate_program (ast : List Stmt) : String :=
  match run_statements ast initState .nil with
  | .ok v s => joinAll (s.output ++ [reprValue v])
  | .err (.rt m) s => joinAll (s.output ++ ["[Error] " ++ m])
  | .err .fuelOut _ => "maximum recursion depth exceeded"

/-- Top-level `evaluate_program(source)`: parse errors are returned as the bare
exception text (`str(e)`), not routed through the `[Error]` formatting. -/
def evaluate_program (source : String) : String :=
  match parseProgram source with
  | .error m => m
  | .ok ast => evaluator_evaluate_program ast

end Elf

namespace Elf

set_option maxRecDepth 200000

/-! ### Claim theorems -/

/-- Claim C1 (code divergence).  The claim states that partially applying a
user function and then supplying the remaining arguments returns the same
value as calling it with all arguments at once, the partial application
retaining the closure environment of the definition site.  The code's partial
application branch replaces an `Environment` closure by a dict holding only
the bound arguments (the source's own TODO marks this unhandled), so a body
that refers to a definition-site binding fails after partial application:
`f(1)(2)` aborts with `Identifier can not be found: c` while `f(1, 2)`
returns `13`. -/
theorem C1_code_divergence :
    evaluate_program "let make = |c| |a, b| a + b + c; let f = make(10); f(1)(2)" =
      "[Error] Identifier can not be found: c" ∧
    evaluate_program "let make = |c| |a, b| a + b + c; let f = make(10); f(1, 2)" = "13" := by
  constructor
  · decide
  · decide

/-- Claim C2 (code divergence).  The claim states that Sets never hold two
structurally-equal elements and that `\x7b 3, 1, 2, 1 \x7d` prints
`\x7b1, 2, 3\x7d`.  The Set literal branch of the evaluator stores the
evaluated items without any duplicate check (although `ElfSet`'s own comment
promises unique values, and `push`/set-union do deduplicate), so the program
prints `\x7b1, 1, 2, 3\x7d`, and the duplicate-carrying set is not even equal
to `\x7b1, 2, 3\x7d` under the interpreter's own structural equality. -/
theorem C2_code_divergence :
    evaluate_program "\x7b 3, 1, 2, 1 \x7d" = "\x7b1, 1, 2, 3\x7d" ∧
    evaluate_program "\x7b3, 1, 2, 1\x7d == \x7b1, 2, 3\x7d" = "false" := by
  constructor
  · decide
  · decide

/-- Claim C4 (code divergence).  Division by an Integer zero does raise
`Division by zero`, and the quotient is truncated toward zero for small
operands; but `int(a / b)` routes the quotient through an IEEE-754 double, so
for large magnitudes the result is not the truncated quotient: the code's own
comment promises truncation toward zero, yet `100000000000000001 / 1`
evaluates to `100000000000000000`. -/
theorem C4_code_divergence :
    (∀ a : Int, divide_values (.int a) (.int 0) = .error "Division by zero") ∧
    divide_values (.int 7) (.int (-2)) = .ok (.int (-3)) ∧
    divide_values (.int (10 ^ 17 + 1)) (.int 1) = .ok (.int (10 ^ 17)) ∧
    (10 ^ 17 : Int) ≠ 10 ^ 17 + 1 ∧
    evaluate_program "100000000000000001 / 1" = "100000000000000000" := by
  refine ⟨fun a => by simp [divide_values], by rfl, by rfl, by decide, by decide⟩

/-- Claim C5 (code divergence).  The claim states that a Dictionary literal
with structurally-equal keys keeps the key once, bound to the last-written
value.  The Dictionary literal branch appends every evaluated pair without a
duplicate-key check (while `assoc` and `+`-merge do deduplicate), so
`#\x7b"a": 1, "a": 2\x7d` retains both pairs — it prints with the key twice,
and indexing returns the first write `1`, not the last write `2`. -/
theorem C5_code_divergence :
    evaluate_program "#\x7b\"a\": 1, \"a\": 2\x7d" = "#\x7b\"a\": 1, \"a\": 2\x7d" ∧
    evaluate_program "#\x7b\"a\": 1, \"a\": 2\x7d[\"a\"]" = "1" := by
  constructor
  · decide
  · decide

end Elf

namespace Elf

lemma strLtL_asymm : ∀ a b : List Char, strLtL a b = true → strLtL b a = false := by
  intro a
  induction a with
  | nil => intro b _; cases b <;> simp [strLtL]
  | cons x xs ih =>
    intro b h
    cases b with
    | nil => simp [strLtL] at h
    | cons y ys =>
      simp only [strLtL] at h ⊢
      split_ifs at h ⊢ <;> try simp_all
      all_goals omega

lemma strLtL_le_trans : ∀ a b c : List Char,
    strLtL b a = false → strLtL c b = false → strLtL c a = false := by
  intro a
  induction a with
  | nil => intro b c _ _; cases c <;> simp [strLtL]
  | cons x xs ih =>
    intro b c hba hcb
    cases b with
    | nil => simp [strLtL] at hba
    | cons y ys =>
      cases c with
      | nil => simp [strLtL] at hcb
      | cons z zs =>
        simp only [strLtL] at hba hcb ⊢
        split_ifs at hba hcb ⊢ <;> try simp_all
        all_goals try omega
        all_goals exact ih ys zs hba hcb

end Elf

namespace Elf

lemma Dq.ltb_asymm (a b : Dq) : a.ltb b = true → b.ltb a = false := by
  simp only [Dq.ltb, decide_eq_true_eq, decide_eq_false_iff_not]
  intro h
  omega

lemma Dq.le_trans (a b c : Dq) : b.ltb a = false → c.ltb b = false → c.ltb a = false := by
  simp only [Dq.ltb, decide_eq_false_iff_not, not_lt]
  intro h1 h2
  have hb : (0 : Int) < b.den := Int.natCast_pos.mpr b.den_pos
  have h3 := mul_le_mul_of_nonneg_right h1 (le_of_lt (Int.natCast_pos.mpr c.den_pos))
  have h4 := mul_le_mul_of_nonneg_right h2 (le_of_lt (Int.natCast_pos.mpr a.den_pos))
  have h5 : a.num * c.den * b.den ≤ c.num * a.den * b.den := by nlinarith
  exact le_of_mul_le_mul_right h5 hb

lemma keyLt_asymm : ∀ a b : SKey, keyLt a b = true → keyLt b a = false := by
  intro a b
  cases a <;> cases b <;> simp_all [keyLt, SKey.rank] <;>
    first
    | omega
    | (intro h; omega)
    | (exact fun h => by simpa using Dq.ltb_asymm _ _ (by simpa using h))
    | (exact fun h => by simpa [strLt] using strLtL_asymm _ _ (by simpa [strLt] using h))

end Elf

namespace Elf

lemma keyLe_trans : ∀ a b c : SKey,
    keyLt b a = false → keyLt c b = false → keyLt c a = false := by
  intro a b c
  cases a <;> cases b <;> cases c <;> simp_all [keyLt, SKey.rank] <;>
    first
    | omega
    | (intro h1 h2; omega)
    | (exact fun h1 h2 => Dq.le_trans _ _ _ (by simpa using h1) (by simpa using h2))
    | (exact fun h1 h2 => by
        simpa [strLt] using strLtL_le_trans _ _ _ (by simpa [strLt] using h1)
          (by simpa [strLt] using h2))

end Elf

namespace Elf

/-- The non-strict print order on keyed entries: the right key is not strictly
below the left key. -/
def keyedLe (p q : SKey × String) : Prop := keyLt q.1 p.1 = false

lemma insertPair_perm (p : SKey × String) :
    ∀ l : List (SKey × String), (insertPair p l).Perm (p :: l) := by
  intro l
  induction l with
  | nil => simp [insertPair]
  | cons q qs ih =>
    rw [insertPair]
    split_ifs with h
    · exact (ih.cons q).trans (List.Perm.swap p q qs)
    · exact List.Perm.refl _

lemma sortPairs_perm : ∀ l : List (SKey × String), (sortPairs l).Perm l := by
  intro l
  induction l with
  | nil => simp [sortPairs]
  | cons p ps ih => exact (insertPair_perm p (sortPairs ps)).trans (ih.cons p)

lemma insertPair_pairwise (p : SKey × String) :
    ∀ l : List (SKey × String), l.Pairwise keyedLe → (insertPair p l).Pairwise keyedLe := by
  intro l
  induction l with
  | nil => intro _; simp [insertPair, keyedLe]
  | cons q qs ih =>
    intro h
    rw [List.pairwise_cons] at h
    rw [insertPair]
    split_ifs with hq
    · rw [List.pairwise_cons]
      refine ⟨?_, ih h.2⟩
      intro z hz
      rcases List.mem_cons.mp ((insertPair_perm p qs).mem_iff.mp hz) with hz | hz
      · subst hz
        exact keyLt_asymm _ _ hq
      · exact h.1 z hz
    · have hq' : keyLt q.1 p.1 = false := by simpa using hq
      rw [List.pairwise_cons]
      refine ⟨?_, List.pairwise_cons.mpr h⟩
      intro z hz
      rcases List.mem_cons.mp hz with hz | hz
      · subst hz; exact hq'
      · exact keyLe_trans _ _ _ hq' (h.1 z hz)

lemma sortPairs_pairwise : ∀ l : List (SKey × String), (sortPairs l).Pairwise keyedLe := by
  intro l
  induction l with
  | nil => simp [sortPairs]
  | cons p ps ih => exact insertPair_pairwise p _ ih

end Elf

namespace Elf

/-- Claim C7 (counterexample).  The claim says numeric cross-kind comparisons
in the print order are decided by numeric value, so a Decimal 1.5 would print
before an Integer 2; but the sort key compares the kind rank first
(Integer 0 < Decimal 1), so `\x7b1.5, 2\x7d` prints `\x7b2, 1.5\x7d`. -/
theorem C7_counterexample :
    evaluate_program "\x7b1.5, 2\x7d" = "\x7b2, 1.5\x7d" ∧
    ("\x7b2, 1.5\x7d" : String) ≠ "\x7b1.5, 2\x7d" := by
  constructor
  · decide
  · decide

/-- Claim C7 (amended).  For every Set (and every Dictionary, by key) the
printed form lists the members ascending under the total preorder given by
comparing `(kind-rank, within-kind key)` lexicographically — the sorted
member list is a permutation of the keyed members, pairwise non-descending
under `keyedLe` — where the kind ranks order Integer < Decimal < String <
Boolean < Nil (so any Integer precedes any Decimal regardless of numeric
value), and within a kind integers compare by value, a Decimal is keyed by
the binary64 float conversion of its stored decimal (so decimals exactly
unequal but equal as doubles carry equal keys and keep insertion order under
the stable sort, as the concrete tie program shows), strings compare
code-point lexicographically, and `false` precedes `true`. -/
theorem C7_amended :
    (∀ items : List Value,
      (reprValue (.set items) =
        "\x7b" ++ joinComma ((sortPairs (items.map (fun x =>
          (skeyOf x (reprF (vdepthL items) x), reprF (vdepthL items) x)))).map Prod.snd) ++
          "\x7d") ∧
      (sortPairs (items.map (fun x =>
          (skeyOf x (reprF (vdepthL items) x), reprF (vdepthL items) x)))).Perm
        (items.map (fun x => (skeyOf x (reprF (vdepthL items) x), reprF (vdepthL items) x))) ∧
      (sortPairs (items.map (fun x =>
          (skeyOf x (reprF (vdepthL items) x), reprF (vdepthL items) x)))).Pairwise keyedLe) ∧
    (∀ pairs : List (Value × Value),
      (reprValue (.dict pairs) =
        "#\x7b" ++ joinComma ((sortPairs (pairs.map (fun p =>
          (skeyOf p.1 (reprF (vdepthP pairs) p.1),
            reprF (vdepthP pairs) p.1 ++ ": " ++ reprF (vdepthP pairs) p.2)))).map Prod.snd) ++
          "\x7d") ∧
      (sortPairs (pairs.map (fun p =>
          (skeyOf p.1 (reprF (vdepthP pairs) p.1),
            reprF (vdepthP pairs) p.1 ++ ": " ++ reprF (vdepthP pairs) p.2)))).Pairwise keyedLe) ∧
    (∀ (n : Int) (q : Dq) (s : String) (b : Bool),
      keyLt (.kInt n) (.kDec q) = true ∧ keyLt (.kDec q) (.kStr s) = true ∧
      keyLt (.kStr s) (.kBool b) = true ∧ keyLt (.kBool b) .kNil = true ∧
      keyLt (.kDec q) (.kInt n) = false) ∧
    (∀ a b : Int, keyLt (.kInt a) (.kInt b) = decide (a < b)) ∧
    (∀ (q : Dq) (rv : String), skeyOf (.dec q) rv = .kDec (pyFloat q)) ∧
    (∀ a b : Dq, keyLt (.kDec a) (.kDec b) = a.ltb b) ∧
    (∀ s t : String, keyLt (.kStr s) (.kStr t) = strLt s t) ∧
    (keyLt (.kBool false) (.kBool true) = true ∧ keyLt (.kBool true) (.kBool false) = false) ∧
    evaluate_program "\x7b0.1000000000000000000001, 0.1\x7d" =
      "\x7b0.1000000000000000000001, 0.1\x7d" := by
  refine ⟨fun items => ⟨rfl, sortPairs_perm _, sortPairs_pairwise _⟩,
          fun pairs => ⟨rfl, sortPairs_pairwise _⟩,
          fun n q s b => ⟨rfl, rfl, rfl, ?_, rfl⟩,
          fun a b => rfl, fun q rv => rfl, fun a b => rfl, fun s t => rfl, ⟨rfl, rfl⟩, by decide⟩
  cases b <;> rfl

end Elf

namespace Elf

def isIntV : Value → Bool
  | .int _ => true
  | _ => false

/-- Modelled from the spec's words (§4.3.6): `String[Integer]` is indexed by
code-point position, negative indices count from the end, and any index out of
range after the adjustment yields Nil. -/
def specStringIndex (cs : List Char) (i : Int) : Value :=
  let j : Int := if i < 0 then (cs.length : Int) + i else i
  if 0 ≤ j ∧ j < (cs.length : Int) then
    match cs[j.toNat]? with
    | some c => .str (String.mk [c])
    | none => .nil
  else .nil

/-- Modelled from the spec's words (§4.3.6): `List[Integer]`, same semantics on
the element sequence. -/
def specListIndex (items : List Value) (i : Int) : Value :=
  let j : Int := if i < 0 then (items.length : Int) + i else i
  if 0 ≤ j ∧ j < (items.length : Int) then
    match items[j.toNat]? with
    | some v => v
    | none => .nil
  else .nil

lemma take_one_drop {α : Type} : ∀ (l : List α) (n : Nat),
    (l.drop n).take 1 = (match l[n]? with | some c => [c] | none => []) := by
  intro l
  induction l with
  | nil => intro n; cases n <;> simp
  | cons x xs ih =>
    intro n
    cases n with
    | zero => simp
    | succ k => simpa using ih k

/-- Claim C9.  Indexing a String or List with an Integer index is total and
never aborts: it agrees with the spec-modelled index function (negative
indices count from the end, any index out of range after the adjustment
returns Nil, and Strings are indexed by code-point position); indexing a
String or List with a non-Integer index raises exactly
`Unable to perform index operation, found: String[<Kind>]` (respectively the
List form). -/
theorem C9_indexing :
    (∀ (s : String) (i : Int),
      index_value (.str s) (.int i) = .ok (specStringIndex s.data i)) ∧
    (∀ (items : List Value) (i : Int),
      index_value (.list items) (.int i) = .ok (specListIndex items i)) ∧
    (∀ (s : String) (v : Value), isIntV v = false →
      index_value (.str s) v =
        .error ("Unable to perform index operation, found: String[" ++ kindName v ++ "]")) ∧
    (∀ (items : List Value) (v : Value), isIntV v = false →
      index_value (.list items) v =
        .error ("Unable to perform index operation, found: List[" ++ kindName v ++ "]")) := by
  refine ⟨?_, ?_, ?_, ?_⟩
  · intro s i
    simp only [index_value, specStringIndex]
    generalize hgen : (if i < 0 then ((s.data.length : Int)) + i else i) = j
    split_ifs with hB
    · rw [take_one_drop]
      cases h2 : s.data[j.toNat]? with
      | none =>
        have hlen := List.getElem?_eq_none_iff.mp h2
        omega
      | some c => simp
    · rfl
  · intro items i
    simp only [index_value, specListIndex]
    generalize hgen : (if i < 0 then ((items.length : Int)) + i else i) = j
    split_ifs with hB
    · cases h2 : items[j.toNat]? with
      | none =>
        have hlen := List.getElem?_eq_none_iff.mp h2
        omega
      | some v => simp [List.getD, h2]
    · rfl
  · intro s v hv
    cases v <;> simp_all [index_value, isIntV]
  · intro items v hv
    cases v <;> simp_all [index_value, isIntV]

/-- Witness for C9 at concrete inputs, including the non-Integer index error
case. -/
theorem C9_indexing_witness :
    isIntV (.bool true) = false ∧
    index_value (.str "ab") (.bool true) =
      .error "Unable to perform index operation, found: String[Boolean]" ∧
    index_value (.list [.int 7]) (.int (-1)) = .ok (specListIndex [.int 7] (-1)) :=
  ⟨rfl, by
    have h := C9_indexing.2.2.1 "ab" (.bool true) rfl
    simpa using h,
   C9_indexing.2.1 [.int 7] (-1)⟩

end Elf

namespace Elf

/-- The evaluator state a `Res` ends in, whether it succeeded or failed. -/
def Res.state : Res α → EvalState
  | .ok _ s => s
  | .err _ s => s

/-- Claim C8.  `push`, `assoc` and collection `+` (list concatenation, set
union, dictionary merge) return freshly constructed collections and never
mutate their inputs: each builtin call returns with the evaluator state
unchanged (the very same frames and output buffer), so re-reading any
variable bound to the input collection afterwards yields the same value — in
this store-passing embedding, the absence of mutation is exactly this state
preservation, stated explicitly for lookups after a `push` call. -/
theorem C8_no_mutation :
    (∀ (fuel env : Nat) (s : EvalState) (item : Value) (xs : List Value),
      applyCallable (fuel + 1) (.builtin "push" .pushB 2 []) [item, .list xs] env s =
        .ok (.list (xs ++ [item])) s) ∧
    (∀ (fuel env : Nat) (s : EvalState) (item : Value) (xs : List Value),
      applyCallable (fuel + 1) (.builtin "push" .pushB 2 []) [item, .set xs] env s =
        .ok (.set (if xs.any (fun e => values_equal e item) then xs else xs ++ [item])) s) ∧
    (∀ (fuel env : Nat) (s : EvalState) (k v : Value) (ps : List (Value × Value)),
      applyCallable (fuel + 1) (.builtin "assoc" .assocB 3 []) [k, v, .dict ps] env s =
        .ok (.dict (if ps.any (fun p => values_equal p.1 k)
          then ps.map (fun p => if values_equal p.1 k then (k, v) else p)
          else ps ++ [(k, v)])) s) ∧
    (∀ xs ys : List Value, add_values (.list xs) (.list ys) = .ok (.list (xs ++ ys))) ∧
    (∀ xs ys : List Value, add_values (.set xs) (.set ys) = .ok (.set (set_union_go xs ys))) ∧
    (∀ ps qs : List (Value × Value),
      add_values (.dict ps) (.dict qs) = .ok (.dict (dict_merge_go ps qs))) ∧
    (∀ (fuel env : Nat) (s : EvalState) (a b : Value),
      (applyCallable (fuel + 1) (.builtin "+" .addB 2 []) [a, b] env s).state = s) ∧
    (∀ (fuel env fid : Nat) (s : EvalState) (item coll : Value) (name : String),
      lookupVar (applyCallable (fuel + 1) (.builtin "push" .pushB 2 [])
        [item, coll] env s).state fid name = lookupVar s fid name) := by
  refine ⟨fun fuel env s item xs => rfl,
          fun fuel env s item xs => ?_,
          fun fuel env s k v ps => ?_,
          fun xs ys => rfl, fun xs ys => rfl, fun ps qs => rfl,
          fun fuel env s a b => ?_,
          fun fuel env fid s item coll name => ?_⟩
  · show liftPure (builtin_push item (.set xs)) s = _
    rw [builtin_push]
    split_ifs with h <;> rfl
  · show liftPure (builtin_assoc k v (.dict ps)) s = _
    rw [builtin_assoc]
    split_ifs with h <;> rfl
  · show (liftPure (add_values a b) s).state = s
    cases add_values a b <;> rfl
  · show lookupVar (liftPure (builtin_push item coll) s).state fid name = _
    cases builtin_push item coll <;> rfl

end Elf

namespace Elf

/-- Claim C10.  For every `&&` and `||` expression both operands are always
evaluated before the result is computed: if the right operand's evaluation
fails, the whole expression fails with that error even when the left operand
alone would decide the outcome (no short-circuiting), and when both succeed
the result is always a Boolean built from the two operands' truthiness,
never one of the operand values itself. -/
theorem C10_logical_ops :
    ∀ (f : Nat) (l r : Expr) (env : Nat) (s s1 s2 : EvalState) (lv : Value),
      evaluate_expression f l env s = .ok lv s1 →
      (∀ e : Err, evaluate_expression f r env s1 = .err e s2 →
        evaluate_expression (f + 1 + 1) (.binop "&&" l r) env s = .err e s2 ∧
        evaluate_expression (f + 1 + 1) (.binop "||" l r) env s = .err e s2) ∧
      (∀ rv : Value, evaluate_expression f r env s1 = .ok rv s2 →
        evaluate_expression (f + 1 + 1) (.binop "&&" l r) env s =
          .ok (.bool (is_truthy lv && is_truthy rv)) s2 ∧
        evaluate_expression (f + 1 + 1) (.binop "||" l r) env s =
          .ok (.bool (is_truthy lv || is_truthy rv)) s2) := by
  intro f l r env s s1 s2 lv hl
  constructor
  · intro e hr
    constructor <;>
      simp [evaluate_expression, evaluate_binop, hl, hr]
  · intro rv hr
    constructor <;>
      simp [evaluate_expression, evaluate_binop, hl, hr]

/-- Witness for C10 at a concrete input: `0 && zzz` fails with the unbound
identifier error from the right operand although the left operand is falsy. -/
theorem C10_logical_ops_witness :
    evaluate_expression 3 (.binop "&&" (.integer "0") (.identifier "zzz")) 0 initState =
      .err (.rt "Identifier can not be found: zzz") initState :=
  ((C10_logical_ops 1 (.integer "0") (.identifier "zzz") 0 initState initState initState
      (.int 0) rfl).1 (.rt "Identifier can not be found: zzz") rfl).1

end Elf

namespace Elf

lemma strData_append : ∀ a b : String, (a ++ b).data = a.data ++ b.data := by
  intro a b
  cases a
  cases b
  rfl

lemma joinAll_snoc (l : List String) (x : String) : joinAll (l ++ [x]) = joinAll l ++ x := by
  simp [joinAll, List.foldl_append]

/-- Claim C3 (counterexample).  The claim says a failing stage always yields
the output emitted so far followed by `[Error] <message>` — for the syntax
error of the source `(1` (no output emitted, parser message
`Expected TokenType.RPAREN, got None`) that predicts the text
`[Error] Expected TokenType.RPAREN, got None`; but the program returns the
bare parser exception text without the prefix. -/
theorem C3_counterexample :
    evaluate_program "(1" = "Expected TokenType.RPAREN, got None" ∧
    ("Expected TokenType.RPAREN, got None" : String) ≠
      "" ++ ("[Error] " ++ "Expected TokenType.RPAREN, got None") := by
  constructor
  · decide
  · decide

/-- Claim C3 (amended).  For every source text, when parsing succeeds and
evaluation succeeds, `evaluate_program` returns the concatenated puts output
followed by the printed final value; when evaluation fails with a runtime
error it returns the output emitted so far followed by `[Error] <message>`;
but when parsing fails it returns exactly the parser's exception message,
with no partial output and without the `[Error] ` prefix. -/
theorem C3_amended :
    (∀ (source : String) (ast : List Stmt) (v : Value) (s : EvalState),
      parseProgram source = .ok ast →
      run_statements ast initState .nil = .ok v s →
      evaluate_program source = joinAll s.output ++ reprValue v) ∧
    (∀ (source : String) (ast : List Stmt) (m : String) (s : EvalState),
      parseProgram source = .ok ast →
      run_statements ast initState .nil = .err (.rt m) s →
      evaluate_program source = joinAll s.output ++ ("[Error] " ++ m)) ∧
    (∀ (source m : String),
      parseProgram source = .error m → evaluate_program source = m) := by
  refine ⟨?_, ?_, ?_⟩
  · intro source ast v s hp hr
    simp only [evaluate_program, evaluator_evaluate_program, hp, hr, joinAll_snoc]
  · intro source ast m s hp hr
    simp only [evaluate_program, evaluator_evaluate_program, hp, hr, joinAll_snoc]
  · intro source m hp
    rw [evaluate_program, hp]

/-- Witness for C3 on concrete inputs covering the success and the
parse-error clauses. -/
theorem C3_amended_witness :
    evaluate_program "puts(7); 1" = joinAll ["7 ", "\n"] ++ reprValue (.int 1) ∧
    evaluate_program "(1" = "Expected TokenType.RPAREN, got None" :=
  ⟨C3_amended.1 "puts(7); 1"
      [.expression (.call (.identifier "puts") [.integer "7"]), .expression (.integer "1")]
      (.int 1) ⟨[⟨initVars, none⟩], ["7 ", "\n"]⟩ rfl rfl,
   C3_amended.2.2 "(1" "Expected TokenType.RPAREN, got None" rfl⟩

end Elf

namespace Elf

lemma compose_functions_ok {l r c : Value} (h : compose_functions l r = .ok c) :
    c = .builtin ("(" ++ reprValue l ++ ">>" ++ reprValue r ++ ")") (.composed l r) 1 [] := by
  rw [compose_functions] at h
  split_ifs at h
  injection h with h2
  exact h2.symm

lemma applyCallable_composed (lf rf : Value) (nm : String) (x v1 v2 : Value)
    (s1 s2 s3 : EvalState) (env k : Nat)
    (h1 : applyCallable k lf [x] 0 s1 = .ok v1 s2)
    (h2 : applyCallable k rf [v1] 0 s2 = .ok v2 s3) :
    applyCallable (k + 1) (.builtin nm (.composed lf rf) 1 []) [x] env s1 = .ok v2 s3 := by
  show (match applyCallable k lf [x] 0 s1 with
        | .ok i s' => applyCallable k rf [i] 0 s'
        | .err e s' => .err e s') = .ok v2 s3
  rw [h1]
  exact h2

/-- Claim C6.  For all callable values f, g, h and a value x such that the
chained direct applications `f(x)`, `g(f(x))`, `h(g(f(x)))` succeed (the
claim's domain condition; the calls are made at the global environment,
exactly as the composed builtin's own dispatch makes them), the composition
`f >> g` applied to x returns `g(f(x))`, and both `(f >> g) >> h` and
`f >> (g >> h)` applied to x return the same value and final state as
`h(g(f(x)))` — composition is associative.  The fuel hypotheses say each
direct call succeeds at every fuel beyond a threshold n. -/
theorem C6_composition :
    ∀ (n : Nat) (fv gv hv x v1 v2 v3 : Value) (s1 s2 s3 s4 : EvalState)
      (fg fgh gh fgh2 : Value),
      compose_functions fv gv = .ok fg →
      compose_functions fg hv = .ok fgh →
      compose_functions gv hv = .ok gh →
      compose_functions fv gh = .ok fgh2 →
      (∀ m : Nat, n ≤ m → applyCallable m fv [x] 0 s1 = .ok v1 s2) →
      (∀ m : Nat, n ≤ m → applyCallable m gv [v1] 0 s2 = .ok v2 s3) →
      (∀ m : Nat, n ≤ m → applyCallable m hv [v2] 0 s3 = .ok v3 s4) →
      (∀ (env m : Nat), n + 1 ≤ m → applyCallable m fg [x] env s1 = .ok v2 s3) ∧
      (∀ (env m : Nat), n + 2 ≤ m → applyCallable m fgh [x] env s1 = .ok v3 s4) ∧
      (∀ (env m : Nat), n + 2 ≤ m → applyCallable m fgh2 [x] env s1 = .ok v3 s4) := by
  intro n fv gv hv x v1 v2 v3 s1 s2 s3 s4 fg fgh gh fgh2 hfg hfgh hgh hfgh2 hf hg hh
  obtain rfl := compose_functions_ok hfg
  obtain rfl := compose_functions_ok hgh
  obtain rfl := compose_functions_ok hfgh
  obtain rfl := compose_functions_ok hfgh2
  have part1 : ∀ (env m : Nat), n + 1 ≤ m →
      applyCallable m (.builtin ("(" ++ reprValue fv ++ ">>" ++ reprValue gv ++ ")")
        (.composed fv gv) 1 []) [x] env s1 = .ok v2 s3 := by
    intro env m hm
    match m, hm with
    | k + 1, _ =>
      exact applyCallable_composed fv gv _ x v1 v2 s1 s2 s3 env k
        (hf k (by omega)) (hg k (by omega))
  refine ⟨part1, ?_, ?_⟩
  · intro env m hm
    match m, hm with
    | k + 1, _ =>
      exact applyCallable_composed _ hv _ x v2 v3 s1 s3 s4 env k
        (part1 0 k (by omega)) (hh k (by omega))
  · intro env m hm
    match m, hm with
    | k + 1, _ =>
      have hgh' : applyCallable k (.builtin ("(" ++ reprValue gv ++ ">>" ++ reprValue hv ++ ")")
          (.composed gv hv) 1 []) [v1] 0 s2 = .ok v3 s4 := by
        match k, hm with
        | j + 1, _ =>
          exact applyCallable_composed gv hv _ v1 v2 v3 s2 s3 s4 0 j
            (hg j (by omega)) (hh j (by omega))
      exact applyCallable_composed fv _ _ x v1 v3 s1 s2 s4 env k (hf k (by omega)) hgh'

end Elf

namespace Elf

/-- Concrete callables for instantiating the composition law: add one, double,
subtract from 100. -/
def c6f : Value := .builtin "+" .addB 2 [.int 1]
def c6g : Value := .builtin "*" .mulB 2 [.int 2]
def c6h : Value := .builtin "-" .subB 2 [.int 100]
def c6fg : Value :=
  .builtin ("(" ++ reprValue c6f ++ ">>" ++ reprValue c6g ++ ")") (.composed c6f c6g) 1 []
def c6gh : Value :=
  .builtin ("(" ++ reprValue c6g ++ ">>" ++ reprValue c6h ++ ")") (.composed c6g c6h) 1 []
def c6fgh : Value :=
  .builtin ("(" ++ reprValue c6fg ++ ">>" ++ reprValue c6h ++ ")") (.composed c6fg c6h) 1 []
def c6fgh2 : Value :=
  .builtin ("(" ++ reprValue c6f ++ ">>" ++ reprValue c6gh ++ ")") (.composed c6f c6gh) 1 []

/-- Witness for C6: composing add-one, double and subtract-from-100 maps 5 to
100 - (5 + 1) * 2 = 88 under either association, and the first two compose to
12. -/
theorem C6_composition_witness :
    applyCallable 3 c6fgh [.int 5] 0 initState = .ok (.int 88) initState ∧
    applyCallable 3 c6fgh2 [.int 5] 0 initState = .ok (.int 88) initState ∧
    applyCallable 2 c6fg [.int 5] 0 initState = .ok (.int 12) initState := by
  have h := C6_composition 1 c6f c6g c6h (.int 5) (.int 6) (.int 12) (.int 88)
    initState initState initState initState c6fg c6fgh c6gh c6fgh2 rfl rfl rfl rfl
    (fun m hm => match m, hm with
      | k + 1, _ => rfl
      | 0, hm => absurd hm (by decide))
    (fun m hm => match m, hm with
      | k + 1, _ => rfl
      | 0, hm => absurd hm (by decide))
    (fun m hm => match m, hm with
      | k + 1, _ => rfl
      | 0, hm => absurd hm (by decide))
  exact ⟨h.2.1 0 3 (by omega), h.2.2 0 3 (by omega), h.1 0 2 (by omega)⟩

end Elf
